import Mathlib

/-!
Verification of the OpenFPGA-Softcores parsing and path-reconstruction core.

This file gives a shallow embedding, in Lean 4, of the parts of the
repository that the frozen claims talk about:

* `src/platform/parsers/vpr_report_timing_parser.py`
  (`Path`, `VprReportTimingParser.parse`, `get_groups`, `get_stats`,
  `__len__`),
* `src/platform/parsers/blif_parser.py`
  (`BlifModel`, `BlifParser.parse`, `get_pin`, `get_instance`),
* `src/platform/tools/path_builder.py`
  (`PBLocator.create_lut`, `PBLocator.get_id_coords`, `PathBuilder`),
* `src/platform/tools/report_place_timing.py` (the batch loop of `main`),
* `src/platform/analysis/path_formatter.py` (`extract_statistics`).

Modelling conventions, used throughout:

* Python floats are modelled as exact rationals (`ℚ`).  The report files
  carry short decimal literals, and no claim depends on binary-float
  rounding, so the decimal-exact model is used; where the source formats
  a float back to text at a given precision we model decimal rounding
  with round-half-up (Python uses round-half-even on the underlying
  binary value; no theorem below depends on a tie).
* Python dictionaries are modelled as insertion-ordered association
  lists (`Dict`), with the exact Python update semantics: assigning to
  an existing key overwrites it in place, assigning to a fresh key
  appends it.
* Python exceptions (`TypeError`, `IndexError`, ...) are modelled with
  an `Except PyError` result; the string payload is the message Python
  itself produces, which lets us reason about what information an
  uncaught error does (not) carry.
* Methods that the source implements as reads of `self` are modelled as
  pure functions of the corresponding state; methods that mutate state
  return the updated state explicitly.
-/

namespace OFS

/-- Python runtime values that can live in the heterogeneous dictionaries
used by the timing-report parser and the path builder: strings, floats
(modelled as rationals) and ints. -/
inductive PVal where
  | str (s : String)
  | rat (q : ℚ)
  | int (z : ℤ)
deriving DecidableEq, Repr

/-- Python exceptions raised by the modelled code, with the message text
CPython would produce (the messages matter for claims about whether an
error identifies the offending input). -/
inductive PyError where
  | typeError (msg : String)
  | indexError (msg : String)
  | keyError (key : String)
  | valueError (msg : String)
  | attributeError (msg : String)
deriving DecidableEq, Repr

deriving instance DecidableEq for Except

/-- Insertion-ordered Python dict with string keys. -/
abbrev Dict := List (String × PVal)

/-- Dictionary read, `d[k]` as an option (first binding wins; our
constructions keep keys unique, as Python dicts do). -/
def dget : Dict → String → Option PVal
  | [], _ => none
  | (k, v) :: rest, key => if k = key then some v else dget rest key

/-- Python `d[k] = v`: overwrite an existing key in place, append a new
key at the end (CPython dict order semantics). -/
def dset : Dict → String → PVal → Dict
  | [], key, val => [(key, val)]
  | (k, v) :: rest, key, val =>
      if k = key then (k, val) :: rest else (k, v) :: dset rest key val

/-- Read a key that must hold a string, with the Python failure modes:
a missing key is a `KeyError`, a non-string value makes the downstream
string operation fail (reported as a `TypeError`). -/
def dgetStr (d : Dict) (key : String) : Except PyError String :=
  match dget d key with
  | some (.str s) => .ok s
  | some _ => .error (.typeError "expected a str value")
  | none => .error (.keyError key)

/-- Read a key that must hold a float (here: a rational). -/
def dgetRat (d : Dict) (key : String) : Except PyError ℚ :=
  match dget d key with
  | some (.rat q) => .ok q
  | some _ => .error (.typeError "unsupported operand type")
  | none => .error (.keyError key)

/-- Read a key that must hold an int. -/
def dgetInt (d : Dict) (key : String) : Except PyError ℤ :=
  match dget d key with
  | some (.int z) => .ok z
  | some _ => .error (.typeError "unsupported operand type")
  | none => .error (.keyError key)

/-- ASCII whitespace, as recognised by the `\s` class and by
`str.split()` / `str.rstrip()` on the ASCII report files. -/
def pyWs (c : Char) : Bool :=
  c = ' ' ∨ c = '\t' ∨ c = '\n' ∨ c = '\x0d' ∨ c = '\x0b' ∨ c = '\x0c'

/-- Python `line.rstrip()`: drop trailing whitespace. -/
def pyRstrip (s : String) : String :=
  ⟨(s.data.reverse.dropWhile pyWs).reverse⟩

/-- Python `s.strip().split()` / `s.split()`: whitespace-separated words. -/
def pyWords (s : String) : List String :=
  (s.split pyWs).filter (fun w => ¬ w.isEmpty)

/-- Python split at dots, drop the last segment, re-join with dots: the
"object part" of a dotted point name. -/
def dropLastSeg (name : String) : String :=
  String.intercalate "." ((name.splitOn ".").dropLast)

/-- Python substring test `pat in s` for a non-empty pattern. -/
def containsSub (s pat : String) : Bool :=
  2 ≤ (s.splitOn pat).length

/-- Decimal rounding of a rational to `p` places, the effect of
formatting with `"{:.{p}f}"` and parsing the text back with `float`
(round-half-up model of the round-trip; see the file header note). -/
def roundTo (p : ℕ) (q : ℚ) : ℚ :=
  (⌊q * (10 : ℚ) ^ p + 1/2⌋ : ℚ) / (10 : ℚ) ^ p

/- ====================================================================
   VprReportTimingParser  (src/platform/parsers/vpr_report_timing_parser.py)
   ====================================================================

   The parser reads the report line by line and runs a battery of
   anchored regular expressions on every line.  We embed a report line
   as the structured content the regexes can extract.  One text line of
   a real report matches at most one of the constructors below; the
   point/net constructors additionally interact with the two derived
   patterns `_rStartToken` / `_rEndToken`, which is captured by
   `matchesStartToken` / `matchesEndToken` underneath.  Lines that match
   none of the battery (blank lines, table rules, clock lines, ...) are
   `other`.  (The embedding assumes the numeric fields of a matched line
   parse as floats, and that a net-delay line is not simultaneously a
   point line; both hold for the line shapes VPR emits.) -/

/-- Captured groups of the generic point pattern `_rPathPoint`:
point name, node type, the optional placement coordinates of the
`at (x,y)` group (kept as strings, as `_path_point_fmt` does), the
optional clock-edge tag, and the two delay columns. -/
structure PathPointLine where
  point : String
  nodeType : String
  atCoords : Option (String × String)
  edgeClock : Option String
  tIncr : ℚ
  tSum : ℚ
deriving DecidableEq, Repr

/-- One line of a timing report, as classified by the regex battery of
`VprReportTimingParser`. -/
inductive RptLine where
  | scale (unitScale : ℚ)
  | precision (p : ℕ)
  | pathId (id : ℤ)
  | startpoint (s : String)
  | endpoint (e : String)
  | pathType (t : String)
  | point (pl : PathPointLine)
  | net (name : String) (tIncr tSum : ℚ)
  | arrival (t : ℚ)
  | required (t : ℚ)
  | slack (constraint : String) (t : ℚ)
  | other
deriving DecidableEq, Repr

/-- The token `_rStartToken.format(re.escape(path.startpoint))`: it is
the full point pattern with the point-name column pinned to the declared
startpoint (the optional clock-edge group is part of the pattern, so a
point line with an edge tag still matches). -/
def matchesStartToken (sp : String) : RptLine → Bool
  | .point pl => pl.point = sp
  | _ => false

/-- The token `_rEndToken.format(re.escape(path.endpoint))`: the point
pattern with the name pinned to the declared endpoint and with no
clock-edge group, so a point line carrying an edge tag does not match
it. -/
def matchesEndToken (ep : String) : RptLine → Bool
  | .point pl => pl.point = ep ∧ pl.edgeClock = none
  | _ => false

/-- The `Path` object: a Python list of point dicts plus the header
attributes, all of which start out as `None`. -/
structure PyPath where
  id : Option ℤ
  startpoint : Option String
  endpoint : Option String
  ptype : Option String
  arrivalTime : Option ℚ
  requiredTime : Option ℚ
  slackTime : Option ℚ
  points : List Dict
deriving DecidableEq, Repr, Inhabited

/-- Python `Path()`. -/
def freshPath : PyPath :=
  { id := none, startpoint := none, endpoint := none, ptype := none
    arrivalTime := none, requiredTime := none, slackTime := none
    points := [] }

/-- Loop state of `VprReportTimingParser.parse`: the file-info fields,
the path under construction, the net-delay carry `t_incr`, the body
token, and the list of finished paths. -/
structure TState where
  unitScale : Option ℚ
  unitPrecision : Option ℕ
  path : PyPath
  tIncr : ℚ
  token : Bool
  paths : List PyPath
deriving DecidableEq, Repr

/-- Initial loop state of `parse`. -/
def initTState : TState :=
  { unitScale := none, unitPrecision := none, path := freshPath
    tIncr := 0, token := false, paths := [] }

/-- The `_file_info` battery: a scale or precision line updates
`self.fileinfo`. -/
def applyFileInfo (st : TState) : RptLine → TState
  | .scale v => { st with unitScale := some v }
  | .precision p => { st with unitPrecision := some p }
  | _ => st

/-- The `_path_desc` battery: each matching line sets its attribute on
the current path only if the attribute is still `None`. -/
def applyPathDesc (p : PyPath) : RptLine → PyPath
  | .pathId i => if p.id = none then { p with id := some i } else p
  | .startpoint s =>
      if p.startpoint = none then { p with startpoint := some s } else p
  | .endpoint e =>
      if p.endpoint = none then { p with endpoint := some e } else p
  | .pathType t => if p.ptype = none then { p with ptype := some t } else p
  | .arrival t =>
      if p.arrivalTime = none then { p with arrivalTime := some t } else p
  | .required t =>
      if p.requiredTime = none then { p with requiredTime := some t } else p
  | .slack _ t =>
      if p.slackTime = none then { p with slackTime := some t } else p
  | _ => p

/-- Point-dict construction for a matched point line: the `groupdict`
items are inserted in the group order of `_rPathPoint`, skipping absent
optional groups, with `t_incr` clamped up to the carried net delay
(formatted at the current precision) when the parsed increment is
smaller — the defensive normalization of `parse`.  The cumulative
`t_sum` column is stored verbatim. -/
def mkPointDict (pl : PathPointLine) (carry : ℚ) (precision : ℕ) : Dict :=
  let tIncrStored : ℚ :=
    if pl.tIncr < carry then roundTo precision carry else pl.tIncr
  [("point", .str pl.point), ("node_type", .str pl.nodeType)]
  ++ (match pl.atCoords with
      | some (x, y) => [("x", .str x), ("y", .str y)]
      | none => [])
  ++ (match pl.edgeClock with
      | some ec => [("edge_clock", .str ec)]
      | none => [])
  ++ [("t_incr", .rat tIncrStored), ("t_sum", .rat pl.tSum)]

/-- One iteration of the line loop of `parse`.  The returned flag is
true when the `break` on the optional path bound fires.  Mirrors the
source order: file info; path description; slack finalization (with the
early-stop check, whose comparison raises a `TypeError` when the path id
is still `None`); the guard requiring both startpoint and endpoint; the
start token; point collection with the clamp; the carry reset; net-delay
accumulation; the end token. -/
def step (nb0 : Option ℤ) (st : TState) (l : RptLine) :
    Except PyError (TState × Bool) := do
  let st := applyFileInfo st l
  let precision := st.unitPrecision.getD 3
  let st := { st with path := applyPathDesc st.path l }
  -- end of path / loop breaker
  match l with
  | .slack _ _ =>
      let finished := st.path
      let st := { st with paths := st.paths ++ [finished] }
      match nb0 with
      | some n =>
          match finished.id with
          | none =>
              .error (.typeError
                "unorderable types: NoneType and int")
          | some i =>
              if n ≤ i then .ok (st, true)
              else .ok ({ st with path := freshPath }, false)
      | none => .ok ({ st with path := freshPath }, false)
  | _ =>
  -- list of points (and nets) in the path: requires both endpoints known
  if st.path.startpoint = none ∨ st.path.endpoint = none then
    .ok (st, false)
  else
  let sp := st.path.startpoint.getD ""
  let ep := st.path.endpoint.getD ""
  -- from the startpoint...
  let st :=
    if matchesStartToken sp l ∧ ¬ st.token then { st with token := true }
    else st
  -- ...for each point...
  let st :=
    match l with
    | .point pl =>
        if st.token then
          { st with path :=
              { st.path with
                  points := st.path.points ++ [mkPointDict pl st.tIncr precision] } }
        else st
    | _ => st
  let st := match l with | .point _ => { st with tIncr := 0 } | _ => st
  -- ...for each net...
  let st :=
    match l with
    | .net _ ti _ => { st with tIncr := st.tIncr + ti }
    | _ => st
  -- ...to the endpoint
  let st :=
    if matchesEndToken ep l ∧ st.token then { st with token := false } else st
  .ok (st, false)

/-- The line loop of `parse`: run `step` over the lines, stopping early
when the bound check breaks. -/
def runLines (nb0 : Option ℤ) (st : TState) : List RptLine →
    Except PyError (TState × Bool)
  | [] => .ok (st, false)
  | l :: ls => do
      let (st', brk) ← step nb0 st l
      if brk then .ok (st', true) else runLines nb0 st' ls

/-- Parser object state after `__init__` (the `modified_datetime` file
stamp is environment metadata and is not modelled). -/
structure TimingRpt where
  nbPaths : Option ℤ
  unitScale : Option ℚ
  unitPrecision : Option ℕ
  paths : List PyPath
deriving DecidableEq, Repr, Inhabited

/-- The method `parse`: run the loop from the initial state and then
overwrite `self.nb_paths` with the number of parsed paths. -/
def parseTiming (nb0 : Option ℤ) (lines : List RptLine) :
    Except PyError TimingRpt := do
  let (st, _) ← runLines nb0 initTState lines
  .ok { nbPaths := some (st.paths.length : ℤ)
        unitScale := st.unitScale
        unitPrecision := st.unitPrecision
        paths := st.paths }

/-- One group of `get_groups`, keyed by a shared startpoint. -/
structure PathGroup where
  endFirst : Option String
  endList : List (Option String)
  total : ℕ
deriving DecidableEq, Repr

/-- Insertion step of `get_groups` for one path. -/
def addGroup (gs : List (Option String × PathGroup)) (p : PyPath) :
    List (Option String × PathGroup) :=
  match gs with
  | [] => [(p.startpoint,
            { endFirst := p.endpoint, endList := [p.endpoint], total := 1 })]
  | (k, g) :: rest =>
      if k = p.startpoint then
        (k, { g with endList := g.endList ++ [p.endpoint],
                     total := g.total + 1 }) :: rest
      else (k, g) :: addGroup rest p

/-- The method `get_groups`: group paths by startpoint, in insertion
order. -/
def get_groups (paths : List PyPath) : List (Option String × PathGroup) :=
  paths.foldl addGroup []

/-- The statistics record of `get_stats`. -/
structure RptStats where
  highestArrivalTime : ℚ
  lowestArrivalTime : ℚ
  arrivalTimeDeviation : ℚ
deriving DecidableEq, Repr, Inhabited

/-- The method `get_stats`: with no paths it records nothing; otherwise
it reads the first and last arrival times (raising the `np.abs(None)`
`TypeError` when one is missing) and records
`np.abs(high) - np.abs(low)` as the deviation. -/
def get_stats (paths : List PyPath) : Except PyError (Option RptStats) :=
  match paths with
  | [] => .ok none
  | p :: rest =>
    match p.arrivalTime, (rest.getLastD p).arrivalTime with
    | some high, some low =>
        .ok (some { highestArrivalTime := high, lowestArrivalTime := low
                    arrivalTimeDeviation := |high| - |low| })
    | _, _ => .error (.typeError "bad operand type for abs function: NoneType")

/-- Full parser construction state: `__init__` runs `parse`,
`get_groups` and `get_stats`. -/
structure TimingParserObj where
  rpt : TimingRpt
  groups : List (Option String × PathGroup)
  stats : Option RptStats
deriving DecidableEq, Repr, Inhabited

/-- The constructor `VprReportTimingParser.__init__` (minus the
filesystem access): parse, group, compute statistics. -/
def initTimingParser (nb0 : Option ℤ) (lines : List RptLine) :
    Except PyError TimingParserObj := do
  let rpt ← parseTiming nb0 lines
  let groups := get_groups rpt.paths
  let stats ← get_stats rpt.paths
  .ok { rpt := rpt, groups := groups, stats := stats }

/- ====================================================================
   BlifParser  (src/platform/parsers/blif_parser.py)
   ====================================================================

   The BLIF parser works on raw text lines, matching a battery of
   anchored regular expressions.  The matchers below implement those
   patterns directly on strings (`re.match` semantics: anchored at the
   start, trailing text ignored). -/

/-- Values stored in a BLIF block dictionary: plain strings, the `src`
string list, the `pins` table of a `.names` block, the `params` table of
a `.subckt` block, and Python `None` (absent optional latch groups). -/
inductive BVal where
  | str (s : String)
  | strs (l : List String)
  | pinMap (m : List (String × String))
  | params (m : List (String × List String))
  | pynone
deriving DecidableEq, Repr

/-- Generic insertion-ordered association lookup (Python dict read). -/
def aget {α : Type} : List (String × α) → String → Option α
  | [], _ => none
  | (k, v) :: rest, key => if k = key then some v else aget rest key

/-- Generic insertion-ordered association write (Python dict assign). -/
def aset {α : Type} : List (String × α) → String → α → List (String × α)
  | [], key, val => [(key, val)]
  | (k, v) :: rest, key, val =>
      if k = key then (k, val) :: rest else (k, v) :: aset rest key val

/-- One BLIF block: the dict Python builds for a `.names`, `.latch` or
`.subckt` statement (later `.attr` / `.cname` lines add keys to it). -/
abbrev BlifBlock := List (String × BVal)

/-- Python `None` stored in a block maps to an absent value. -/
def bvalToOption : BVal → Option BVal
  | .pynone => none
  | v => some v

/-- Python truthiness of a value a pin lookup can return. -/
def bvalTruthy : BVal → Bool
  | .str s => ¬ s.isEmpty
  | .strs l => ¬ l.isEmpty
  | .pinMap m => ¬ m.isEmpty
  | .params m => ¬ m.isEmpty
  | .pynone => false

/-- The `BlifModel` object. -/
structure BlifModel where
  name : String
  inputs : List String
  outputs : List String
  names : List (String × BlifBlock)
  latches : List (String × BlifBlock)
  subckts : List BlifBlock
  conns : List (String × String)
deriving DecidableEq, Repr

/-- Python `BlifModel(name)`. -/
def mkBlifModel (name : String) : BlifModel :=
  { name := name, inputs := [], outputs := [], names := [], latches := []
    subckts := [], conns := [] }

/-- Character admissible in a `[^\s#]+` capture. -/
def nameChar (c : Char) : Bool := ¬ pyWs c ∧ c ≠ '#'

/-- Leading-literal helper for anchored patterns: the text after a
required literal prefix. -/
def afterLit (line pre : String) : Option String :=
  if line.startsWith pre then some (line.drop pre.length) else none

/-- Pattern `\s*#.+` (a comment line). -/
def matchComment (line : String) : Bool :=
  match line.data.dropWhile pyWs with
  | '#' :: tail => tail ≠ []
  | _ => false

/-- Pattern `\.model (?P<name>[^\s#]+)`. -/
def matchModel (line : String) : Option String :=
  (afterLit line ".model ").bind fun r =>
    let n := r.takeWhile nameChar
    if n.isEmpty then none else some n

/-- Pattern `\.inputs (?P<inputs>[^#]+)`, already split into words as the
parse loop does. -/
def matchInputs (line : String) : Option (List String) :=
  (afterLit line ".inputs ").bind fun r =>
    let cap := r.takeWhile (fun c => c ≠ '#')
    if cap.isEmpty then none else some (pyWords cap)

/-- Pattern `\.outputs (?P<outputs>[^#]+)`, split into words. -/
def matchOutputs (line : String) : Option (List String) :=
  (afterLit line ".outputs ").bind fun r =>
    let cap := r.takeWhile (fun c => c ≠ '#')
    if cap.isEmpty then none else some (pyWords cap)

/-- Pattern `\.names (?P<inputs>.+) (?P<output>[^\s#]+)`: the greedy
`.+` capture takes everything up to the last space that is followed by a
valid output character; the output capture is the maximal `[^\s#]` run
after that space. -/
def matchLut (line : String) : Option (String × String) :=
  (afterLit line ".names ").bind fun r =>
    let cs := r.data
    let cands := (List.range cs.length).filter (fun i =>
      1 ≤ i ∧ cs.getD i '#' = ' ' ∧ nameChar (cs.getD (i + 1) '\n'))
    match cands.getLast? with
    | some i => some (⟨cs.take i⟩, ⟨(cs.drop (i + 1)).takeWhile nameChar⟩)
    | none => none

/-- Captured groups of the `.latch` pattern. -/
structure LatchGroups where
  input : String
  output : String
  ltype : Option String
  clk : Option String
  init : String
deriving DecidableEq, Repr

/-- Pattern
`\.latch (?P<input>[^\s]+) (?P<output>[^\s]+)\s?((?P<type>[^\s]+) (?P<clk>[^\s]+))?\s?(?P<init>\d+)`.
The optional `(type clk)` group is tried first (regex groups are
greedy).  The model requires the init digits to be a separate token;
the exotic backtracking case in which the engine splits a trailing digit
run off the preceding token is not representable in the report files and
is not modelled. -/
def matchLatch (line : String) : Option LatchGroups :=
  (afterLit line ".latch ").bind fun r =>
    let cs := r.data
    let inp := cs.takeWhile (fun c => ¬ pyWs c)
    if inp = [] then none else
    match cs.drop inp.length with
    | ' ' :: rest1 =>
      let outp := rest1.takeWhile (fun c => ¬ pyWs c)
      if outp = [] then none else
      let rest2 := rest1.drop outp.length
      let rest3 := match rest2 with
        | c :: tail => if pyWs c then tail else rest2
        | [] => []
      -- with the optional (type clk) group:
      let withGroup : Option LatchGroups :=
        let t := rest3.takeWhile (fun c => ¬ pyWs c)
        if t = [] then none else
        match rest3.drop t.length with
        | ' ' :: rest4 =>
          let c := rest4.takeWhile (fun c => ¬ pyWs c)
          if c = [] then none else
          let rest5 := rest4.drop c.length
          let rest6 := match rest5 with
            | d :: tail => if pyWs d then tail else rest5
            | [] => []
          let digits := rest6.takeWhile Char.isDigit
          if digits = [] then none
          else some { input := ⟨inp⟩, output := ⟨outp⟩, ltype := some ⟨t⟩
                      clk := some ⟨c⟩, init := ⟨digits⟩ }
        | _ => none
      -- without the group:
      let withoutGroup : Option LatchGroups :=
        let digits := rest3.takeWhile Char.isDigit
        if digits = [] then none
        else some { input := ⟨inp⟩, output := ⟨outp⟩, ltype := none
                    clk := none, init := ⟨digits⟩ }
      withGroup <|> withoutGroup
    | _ => none

/-- Pattern `\.subckt (?P<name>[^\s]+) (?P<params>[^#]+)`. -/
def matchSubckt (line : String) : Option (String × String) :=
  (afterLit line ".subckt ").bind fun r =>
    let n := r.takeWhile (fun c => ¬ pyWs c)
    if n.isEmpty then none else
    match (r.drop n.length).data with
    | ' ' :: rest =>
      let cap := rest.takeWhile (fun c => c ≠ '#')
      if cap = [] then none else some (n, ⟨cap⟩)
    | _ => none

/-- Pattern `\.conn (?P<input>[^\s]+) (?P<output>[^\s#]+)`. -/
def matchConn (line : String) : Option (String × String) :=
  (afterLit line ".conn ").bind fun r =>
    let inp := r.takeWhile (fun c => ¬ pyWs c)
    if inp.isEmpty then none else
    match (r.drop inp.length).data with
    | ' ' :: rest =>
      let outp := rest.takeWhile nameChar
      if outp = [] then none else some (inp, ⟨outp⟩)
    | _ => none

/-- Pattern `\.cname (?P<name>[^\s]+)`. -/
def matchCname (line : String) : Option String :=
  (afterLit line ".cname ").bind fun r =>
    let n := r.takeWhile (fun c => ¬ pyWs c)
    if n.isEmpty then none else some n

/-- Pattern `\.attr (?P<name>[^\s]+) (?P<value>[^\s#]+)`. -/
def matchAttr (line : String) : Option (String × String) :=
  (afterLit line ".attr ").bind fun r =>
    let n := r.takeWhile (fun c => ¬ pyWs c)
    if n.isEmpty then none else
    match (r.drop n.length).data with
    | ' ' :: rest =>
      let v := rest.takeWhile nameChar
      if v = [] then none else some (n, ⟨v⟩)
    | _ => none

/-- Pattern `\.end` (anchored prefix only, trailing text ignored). -/
def matchEnd (line : String) : Bool := line.startsWith ".end"

/-- Cursor to the most recently opened block of the current model (the
`block` variable of the parse loop).  The source never resets it; the
model drops it when a model is closed, which only diverges on the
pathological input of an `.attr`/`.cname` aimed across a `.end`
boundary. -/
inductive BlockRef where
  | namesKey (key : String)
  | latchKey (key : String)
  | subcktIdx (idx : ℕ)
deriving DecidableEq, Repr

/-- Apply an update to the block the cursor points at. -/
def applyToBlock (m : BlifModel) (ref : BlockRef) (f : BlifBlock → BlifBlock) :
    BlifModel :=
  match ref with
  | .namesKey k =>
      match aget m.names k with
      | some b => { m with names := aset m.names k (f b) }
      | none => m
  | .latchKey k =>
      match aget m.latches k with
      | some b => { m with latches := aset m.latches k (f b) }
      | none => m
  | .subcktIdx i =>
      match m.subckts.get? i with
      | some b => { m with subckts := m.subckts.set i (f b) }
      | none => m

/-- The `pins` table of a `.names` statement: `in[0]..in[k-1]` mapped to
the input words, then `out[0]` mapped to the output. -/
def lutPins (inputs : List String) (output : String) : List (String × String) :=
  (inputs.enum.map (fun (idx, pin) => ("in[" ++ toString idx ++ "]", pin)))
  ++ [("out[0]", output)]

/-- The block dict of a `.latch` statement: `dict(groupdict())` with
`input`/`output` popped and re-added as `D[0]`/`Q[0]`. -/
def latchBlock (g : LatchGroups) : BlifBlock :=
  [("type", (g.ltype.map BVal.str).getD .pynone),
   ("clk", (g.clk.map BVal.str).getD .pynone),
   ("init", .str g.init),
   ("D[0]", .str g.input),
   ("Q[0]", .str g.output)]

/-- Parameter-table construction of a `.subckt` statement: each
whitespace word is split at `=`; a pin without a bracket is suffixed
with `[0]`; the table maps each signal to the list of pins connected to
it.  A word with no `=` raises the `IndexError` of `p[1]`. -/
def subcktParams (raw : String) : Except PyError (List (String × List String)) :=
  (pyWords raw).foldlM (fun acc w => do
    let parts := w.splitOn "="
    let p0 := parts.headI
    let p0 := if containsSub p0 "[" then p0 else p0 ++ "[0]"
    match parts.get? 1 with
    | none => .error (.indexError "list index out of range")
    | some sig =>
        match aget acc sig with
        | some pins => .ok (aset acc sig (pins ++ [p0]))
        | none => .ok (acc ++ [(sig, [p0])])) []

/-- Loop state of `BlifParser.parse`. -/
structure BlifPState where
  model : Option BlifModel
  cursor : Option BlockRef
  models : List (Option BlifModel)
deriving DecidableEq, Repr

/-- One iteration of the `BlifParser.parse` line loop, in source order:
comment/empty skip; `.model`; `.end` (which appends the current model
object — possibly `None` — to the model list); the guard requiring an
open model; `.inputs`/`.outputs`; `.names`; `.latch`; `.subckt`;
`.conn`; `.attr`; `.cname`. -/
def blifStep (st : BlifPState) (line : String) : Except PyError BlifPState := do
  if line.isEmpty ∨ matchComment line then .ok st else
  let st :=
    match matchModel line with
    | some n => { st with model := some (mkBlifModel n) }
    | none => st
  let st :=
    if matchEnd line then
      { st with models := st.models ++ [st.model], model := none,
                cursor := none }
    else st
  match st.model with
  | none => .ok st
  | some m =>
    let m :=
      match matchInputs line with
      | some ws => { m with inputs := ws }
      | none => m
    let m :=
      match matchOutputs line with
      | some ws => { m with outputs := ws }
      | none => m
    let (m, cursor) :=
      match matchLut line with
      | some (inputsRaw, output) =>
          let block : BlifBlock := [("pins", .pinMap (lutPins (pyWords inputsRaw) output))]
          ({ m with names := aset m.names output block }, some (BlockRef.namesKey output))
      | none => (m, st.cursor)
    let (m, cursor) :=
      match matchLatch line with
      | some g =>
          ({ m with latches := aset m.latches g.output (latchBlock g) },
           some (BlockRef.latchKey g.output))
      | none => (m, cursor)
    let (m, cursor) ←
      match matchSubckt line with
      | some (n, raw) => do
          let ps ← subcktParams raw
          let block : BlifBlock := [("name", .str n), ("params", .params ps)]
          .ok ({ m with subckts := m.subckts ++ [block] },
               some (BlockRef.subcktIdx m.subckts.length))
      | none => .ok (m, cursor)
    let m :=
      match matchConn line with
      | some (inp, outp) => { m with conns := aset m.conns outp inp }
      | none => m
    let m :=
      match matchAttr line, cursor with
      | some (n, v), some ref =>
          let value : BVal :=
            if n = "src" then
              .strs ((((⟨v.data.dropWhile pyWs⟩ : String).data.reverse.dropWhile
                        pyWs).reverse.drop 1).dropLast.asString.splitOn "|")
            else .str v
          applyToBlock m ref (fun b => aset b n value)
      | _, _ => m
    let m :=
      match matchCname line, cursor with
      | some n, some ref => applyToBlock m ref (fun b => aset b "inst" (.str n))
      | _, _ => m
    .ok { model := some m, cursor := cursor, models := st.models }

/-- The method `BlifParser.parse` over a list of raw lines (each line is
`rstrip`-ed first, as `parse` does). -/
def blifParse (lines : List String) : Except PyError BlifPState :=
  (lines.map pyRstrip).foldlM blifStep
    { model := none, cursor := none, models := [] }

/-- The `BlifParser` object: its list of parsed models (a stray `.end`
stores a Python `None` in the list, hence the options). -/
def blifParseText (text : String) : Except PyError (List (Option BlifModel)) :=
  (blifParse (text.splitOn "\n")).map (fun st => st.models)

/-- Python `BlifModel._split_point`: separate the object name from its
pin segment. -/
def split_point (pointName : String) : String × String :=
  (dropLastSeg pointName, (pointName.splitOn ".").getLastD "")

namespace BlifModel

/-- Method `get_pin_names`: look the object part up in the `.names`
table and return the signal bound to the pin part, if any. -/
def get_pin_names (m : BlifModel) (pointName : String) :
    Except PyError (Option BVal) :=
  let (output, pinName) := split_point pointName
  match aget m.names output with
  | none => .ok none
  | some block =>
    match aget block "pins" with
    | some (.pinMap pins) =>
        match aget pins pinName with
        | some sig => .ok (some (.str sig))
        | none => .ok none
    | some (.str s) =>
        if containsSub s pinName then
          .error (.typeError "string indices must be integers")
        else .ok none
    | some (.strs l) =>
        if pinName ∈ l then
          .error (.typeError "list indices must be integers or slices, not str")
        else .ok none
    | some (.params ps) =>
        match aget ps pinName with
        | some pins => .ok (some (.strs pins))
        | none => .ok none
    | some .pynone =>
        .error (.typeError "argument of type NoneType is not iterable")
    | none => .error (.keyError "pins")

/-- Method `get_pin_latch`: look the object part up in the `.latch`
table and return the value stored under the pin key (a stored Python
`None` — an absent optional group — is returned as `None`). -/
def get_pin_latch (m : BlifModel) (pointName : String) :
    Except PyError (Option BVal) :=
  let (output, pinName) := split_point pointName
  match aget m.latches output with
  | none => .ok none
  | some block =>
    match aget block pinName with
    | some v => .ok (bvalToOption v)
    | none => .ok none

/-- Helper `_get_pin_subckt`: first signal of the parameter table whose
pin list contains the pin name. -/
def get_pin_subckt_aux (params : List (String × List String))
    (pinName : String) : Option String :=
  match params with
  | [] => none
  | (sig, pins) :: rest =>
      if pinName ∈ pins then some sig else get_pin_subckt_aux rest pinName

/-- The sub-circuit scan of `get_pin_subckt` over the block list. -/
def get_pin_subckt_go (output pinName : String) :
    List BlifBlock → Except PyError (Option BVal)
  | [] => .ok none
  | block :: rest =>
      match aget block "params" with
      | some (.params ps) =>
          if (aget ps output).isSome then
            .ok ((get_pin_subckt_aux ps pinName).map BVal.str)
          else get_pin_subckt_go output pinName rest
      | some (.str s) =>
          if containsSub s output then
            .error (.attributeError "str object has no attribute items")
          else get_pin_subckt_go output pinName rest
      | some (.strs l) =>
          if output ∈ l then
            .error (.attributeError "list object has no attribute items")
          else get_pin_subckt_go output pinName rest
      | some (.pinMap ps) =>
          if (aget ps output).isSome then
            .error (.attributeError "pin table holds no item lists")
          else get_pin_subckt_go output pinName rest
      | some .pynone =>
          .error (.typeError "argument of type NoneType is not iterable")
      | none => .error (.keyError "params")

/-- Method `get_pin_subckt`: first sub-circuit whose parameter table has
the object name as a signal key; then resolve the pin inside it. -/
def get_pin_subckt (m : BlifModel) (pointName : String) :
    Except PyError (Option BVal) :=
  let (output, pinName) := split_point pointName
  get_pin_subckt_go output pinName m.subckts

/-- Method `get_pin`: with a recognised element type, dispatch to the
specific lookup; otherwise try the three lookups in the fixed order
`names`, `latch`, `subckt`, returning the first truthy result. -/
def get_pin (m : BlifModel) (pointName : String) (elementType : Option String) :
    Except PyError (Option BVal) := do
  match elementType with
  | some "names" => m.get_pin_names pointName
  | some "latch" => m.get_pin_latch pointName
  | some "subckt" => m.get_pin_subckt pointName
  | _ =>
    let r1 ← m.get_pin_names pointName
    match r1 with
    | some v => if bvalTruthy v then .ok (some v) else do
        let r2 ← m.get_pin_latch pointName
        match r2 with
        | some v2 => if bvalTruthy v2 then .ok (some v2) else do
            let r3 ← m.get_pin_subckt pointName
            match r3 with
            | some v3 => if bvalTruthy v3 then .ok (some v3) else .ok none
            | none => .ok none
        | none => do
            let r3 ← m.get_pin_subckt pointName
            match r3 with
            | some v3 => if bvalTruthy v3 then .ok (some v3) else .ok none
            | none => .ok none
    | none => do
        let r2 ← m.get_pin_latch pointName
        match r2 with
        | some v2 => if bvalTruthy v2 then .ok (some v2) else do
            let r3 ← m.get_pin_subckt pointName
            match r3 with
            | some v3 => if bvalTruthy v3 then .ok (some v3) else .ok none
            | none => .ok none
        | none => do
            let r3 ← m.get_pin_subckt pointName
            match r3 with
            | some v3 => if bvalTruthy v3 then .ok (some v3) else .ok none
            | none => .ok none

/-- The sub-circuit scan of `get_instance` over the block list. -/
def get_instance_go (output pinName : String) :
    List BlifBlock → Except PyError (Option BVal)
  | [] => .ok none
  | block :: rest =>
      match aget block "inst" with
      | none => get_instance_go output pinName rest
      | some instVal =>
        match aget block "params" with
        | some (.params ps) =>
            if (aget ps output).isSome then
              match get_pin_subckt_aux ps pinName with
              | some sig =>
                  if sig.isEmpty then get_instance_go output pinName rest
                  else .ok (bvalToOption instVal)
              | none => get_instance_go output pinName rest
            else get_instance_go output pinName rest
        | some (.str s) =>
            if containsSub s output then
              .error (.attributeError "str object has no attribute items")
            else get_instance_go output pinName rest
        | some (.strs l) =>
            if output ∈ l then
              .error (.attributeError "list object has no attribute items")
            else get_instance_go output pinName rest
        | some (.pinMap ps) =>
            if (aget ps output).isSome then
              .error (.attributeError "pin table holds no item lists")
            else get_instance_go output pinName rest
        | some .pynone =>
            .error (.typeError "argument of type NoneType is not iterable")
        | none => .error (.keyError "params")

/-- Method `get_instance`: first sub-circuit carrying a caller-assigned
instance name whose parameter table has the object name as a key and
resolves the pin to a truthy signal. -/
def get_instance (m : BlifModel) (pointName : String) :
    Except PyError (Option BVal) :=
  let (output, pinName) := split_point pointName
  get_instance_go output pinName m.subckts

end BlifModel

namespace BlifParser

/-- Parser-level `get_pin`: try each model in file order; the first
non-`None` result wins.  A `None` entry in the model list (stray
`.end`) raises the `AttributeError` Python would raise. -/
def get_pin (models : List (Option BlifModel)) (pointName : String)
    (elementType : Option String) : Except PyError (Option BVal) :=
  match models with
  | [] => .ok none
  | none :: _ =>
      .error (.attributeError "NoneType object has no attribute get_pin")
  | some m :: rest => do
      match ← m.get_pin pointName elementType with
      | some v => .ok (some v)
      | none => get_pin rest pointName elementType

/-- Parser-level `get_instance`: try each model in file order; the first
non-`None` result wins. -/
def get_instance (models : List (Option BlifModel)) (pointName : String) :
    Except PyError (Option BVal) :=
  match models with
  | [] => .ok none
  | none :: _ =>
      .error (.attributeError "NoneType object has no attribute get_instance")
  | some m :: rest => do
      match ← m.get_instance pointName with
      | some v => .ok (some v)
      | none => get_instance rest pointName

end BlifParser

/- ====================================================================
   PBLocator and PathBuilder  (src/platform/tools/path_builder.py)
   ==================================================================== -/

/-- One block element of the packed-netlist XML tree (`*.net`): the
`name` and `instance` attributes and the nested `block` children (ports
and other child elements play no role in the locator and are not
modelled). -/
structure XmlBlock where
  name : String
  instName : String
  children : List XmlBlock

mutual
/-- Visit order of `PBLocator._find_block_names` for one block: the
subtree is pruned at `open` children; every other child contributes its
name followed by its own subtree (depth-first, in document order). -/
def blockNameSeq : XmlBlock → List String
  | .mk _ _ children => blockNameSeqList children

/-- Visit order over a child list. -/
def blockNameSeqList : List XmlBlock → List String
  | [] => []
  | c :: rest =>
      (if c.name = "open" then [] else c.name :: blockNameSeq c)
      ++ blockNameSeqList rest
end

/-- The accumulator rule of `_find_block_names`: append each visited
name only when it is not already present. -/
def dedupAppend (names : List String) : List String → List String
  | [] => names
  | n :: rest => dedupAppend (if n ∈ names then names else names ++ [n]) rest

/-- Method `PBLocator._find_block_names`: recursively collect the names
of all descendant blocks of a parent into the accumulator.  The source
threads the accumulator through the traversal; the accumulator never
influences which blocks are visited, so the embedding factors the
traversal (`blockNameSeq`) from the append-if-new fold
(`dedupAppend`), which produces the identical list. -/
def find_block_names (parent : XmlBlock) (names : List String) : List String :=
  dedupAppend names (blockNameSeq parent)

/-- Modelled from the spec: the class `VprPlaceParser` is imported by the
tools (`from parsers.vpr_place_parser import VprPlaceParser`) but its
source file is not part of the repository snapshot.  Spec section 4.2:
"a companion parser reads the placement coordinate table keyed by
physical-block name or id and returns (x, y, sub-index); this is a leaf
lookup with no cross-referencing logic beyond key matching."  The parsed
table is modelled as an association list and `get_coordinates` as the
plain key lookup returning the (x, y, sub-index) triple. -/
structure VprPlace where
  coords : List (String × (ℤ × ℤ × ℤ))
deriving DecidableEq, Repr

/-- Modelled from the spec: `VprPlaceParser.get_coordinates`, a leaf key
lookup (see `VprPlace`). -/
def get_coordinates (p : VprPlace) (name : String) : Option (ℤ × ℤ × ℤ) :=
  aget p.coords name

/-- The `id_coords` dict of `PBLocator.create_lut`: keys `pb_id` (a
string, cut out of the `instance` attribute), `x`, `y`, and the
`pb_coords` key that `PathBuilder.get_block_place` later assigns into
the shared dict (absent right after `create_lut`). -/
structure PBInfo where
  pb_id : String
  x : ℤ
  y : ℤ
  pb_coords : Option String
deriving DecidableEq, Repr, Inhabited

/-- The lookup table of `PBLocator`: per top-level physical block, the
collected descendant-name set and the shared `id_coords` dict. -/
abbrev Lut := List (List String × PBInfo)

/-- Python `block.attrib['instance'][:-1].split('[')` destructured into
exactly two values; any other arity raises the unpacking
`ValueError`. -/
def instanceId (inst : String) : Except PyError String :=
  match (inst.dropRight 1).splitOn "[" with
  | [_, pbId] => .ok pbId
  | _ => .error (.valueError "values to unpack: expected 2")

/-- Method `PBLocator.create_lut`: one pass over the top-level blocks of
the net tree; each contributes its descendant-name set and an
`id_coords` dict built from the instance id and the placement
coordinates (an unknown block name makes the coordinate destructuring
fail, modelled as the `TypeError` of unpacking `None`). -/
def create_lut (net : List XmlBlock) (place : VprPlace) :
    Except PyError Lut :=
  net.foldlM (fun lut block => do
    let bname := block.name
    let pbId ← instanceId block.instName
    match get_coordinates place bname with
    | none => .error (.typeError "cannot unpack non-iterable NoneType object")
    | some (x, y, _) =>
        let bnames := find_block_names block [bname]
        .ok (lut ++ [(bnames,
              { pb_id := pbId, x := x, y := y, pb_coords := none })])) []

/-- Method `PBLocator.get_id_coords`: strip the point name to its object
part and return the `id_coords` dict of the first LUT entry whose name
set contains it. -/
def get_id_coords (lut : Lut) (pointName : String) : Option PBInfo :=
  match lut with
  | [] => none
  | (bnames, info) :: rest =>
      if dropLastSeg pointName ∈ bnames then some info
      else get_id_coords rest pointName

/-- The `PBLocator` object after construction. -/
structure PBLocator where
  lut : Lut
deriving DecidableEq, Repr

/-- Method call `loc.get_id_coords(point_name)` in state-passing form:
the body of the method only reads `self._lut`, so the locator state
comes back unchanged by construction (this is the content of the source:
the method contains no assignment to `self`). -/
def PBLocator.get_id_coords_call (loc : PBLocator) (pointName : String) :
    Option PBInfo × PBLocator :=
  (get_id_coords loc.lut pointName, loc)

/-- Python `"{x:2}"` on an int: right-aligned in a field of width 2. -/
def fmtWidth2 (z : ℤ) : String :=
  let s := toString z
  if s.length < 2 then " " ++ s else s

/-- The `pb_coords` string `"({x:2},{y:2})".format(**id_coords)`. -/
def formatCoords (x y : ℤ) : String :=
  "(" ++ fmtWidth2 x ++ "," ++ fmtWidth2 y ++ ")"

/-- The resolve-then-mutate step of `get_block_place`: the returned
`id_coords` dict is the one stored in the LUT entry (a shared
reference), and the subsequent `id_coords['pb_coords'] = ...` assignment
therefore also updates the LUT; this function performs
`get_id_coords` and that assignment together, returning both the dict
and the updated LUT. -/
def get_id_coords_update : Lut → String → Option (PBInfo × Lut)
  | [], _ => none
  | (bnames, info) :: rest, pointName =>
      if dropLastSeg pointName ∈ bnames then
        let info' := { info with pb_coords := some (formatCoords info.x info.y) }
        some (info', (bnames, info') :: rest)
      else
        (get_id_coords_update rest pointName).map
          (fun (i, rest') => (i, (bnames, info) :: rest'))

/-- Python `point.update(id_coords)` for the four keys of `id_coords`
(in its insertion order `pb_id`, `x`, `y`, `pb_coords`). -/
def updatePoint (d : Dict) (info : PBInfo) : Dict :=
  dset (dset (dset (dset d "pb_id" (.str info.pb_id))
    "x" (.int info.x)) "y" (.int info.y))
    "pb_coords" (.str (info.pb_coords.getD ""))

/-- The point loop of `PathBuilder.get_block_place`: resolve every point
through the locator and merge the resolved dict into the point dict (an
unresolved point makes the `pb_coords` assignment on `None` raise a
`TypeError`). -/
def get_block_place_points (lut : Lut) :
    List Dict → Except PyError (List Dict × Lut)
  | [] => .ok ([], lut)
  | d :: ds => do
      let pname ← dgetStr d "point"
      match get_id_coords_update lut pname with
      | none =>
          .error (.typeError "NoneType object does not support item assignment")
      | some (info, lut') => do
          let (ds', lut'') ← get_block_place_points lut' ds
          .ok (updatePoint d info :: ds', lut'')

/-- Removal of the `\$\d+` matches (leftmost, non-overlapping, greedy
digit runs after a dollar sign).  Splitting at every dollar sign and
re-joining captures exactly the regex semantics: a segment after a
dollar sign that starts with digits had a match there (the dollar sign
and the leading digit run are dropped); any other segment keeps its
dollar sign. -/
def removeDollarNums (s : String) : String :=
  match s.splitOn "$" with
  | [] => s
  | s0 :: rest =>
      s0 ++ String.join (rest.map (fun seg =>
        match seg.data with
        | c :: _ => if c.isDigit then ⟨seg.data.dropWhile Char.isDigit⟩
                    else "$" ++ seg
        | [] => "$" ++ seg))

/-- The name cleanup at the end of `_get_instance_name`: the literal
replacements `$abc`, `$auto`, `$flatten` and backslash, followed by the
two `re.sub` patterns.  The first pattern, `$aiger\d+`, contains an
unescaped dollar sign, which the regex engine reads as an end-of-input
anchor followed by required characters: it can never match, so that
substitution is the identity.  The second pattern, `\$\d+`, removes
dollar-digit runs. -/
def cleanName (s : String) : String :=
  removeDollarNums
    ((((s.replace "$abc" "").replace "$auto" "").replace "$flatten" "").replace
      "\\" "")

/-- Method `PathBuilder._get_instance_name`: with no BLIF model the raw
point name is returned; otherwise the node type selects the resolution
(terminal pads by name stripping, dotted types through `get_pin`,
sub-circuit types through `get_instance` with the node type as
fallback), followed by the `$techmap` special case and the name
cleanup.  A `get_pin` miss returns Python `None`, and the `$techmap`
containment test on `None` raises a `TypeError`. -/
def get_instance_name (blif : Option (List (Option BlifModel)))
    (point : Dict) : Except PyError String := do
  match blif with
  | none => dgetStr point "point"
  | some models =>
    let pbType ← dgetStr point "node_type"
    let pname ← dgetStr point "point"
    if pbType.startsWith "." then do
      let pinName ←
        if pbType = ".output" then .ok (BVal.str (dropLastSeg pname))
        else if pbType = ".input" then .ok (BVal.str ("in:" ++ dropLastSeg pname))
        else do
          match ← BlifParser.get_pin models pname (some (pbType.drop 1)) with
          | some v => .ok v
          | none => .error (.typeError "argument of type NoneType is not iterable")
      match pinName with
      | .str s =>
          let s := if containsSub s "$techmap" then dropLastSeg pname else s
          .ok (cleanName s)
      | .strs l =>
          if "$techmap" ∈ l then .ok (cleanName (dropLastSeg pname))
          else .error (.attributeError "list object has no attribute replace")
      | .pinMap ps =>
          if (aget ps "$techmap").isSome then .ok (cleanName (dropLastSeg pname))
          else .error (.attributeError "dict object has no attribute replace")
      | .params ps =>
          if (aget ps "$techmap").isSome then .ok (cleanName (dropLastSeg pname))
          else .error (.attributeError "dict object has no attribute replace")
      | .pynone => .error (.typeError "argument of type NoneType is not iterable")
    else do
      match ← BlifParser.get_instance models pname with
      | none => .ok (cleanName pbType)
      | some (.str s) => .ok (cleanName s)
      | some _ => .error (.attributeError "object has no attribute replace")

/-- Method `PathBuilder._get_pb_name`: map the node type through the
short-name table (`lut`, `ff`, `in`, `out`; anything else, i.e. a
sub-circuit class, passes through) and append the physical-block id. -/
def get_pb_name (point : Dict) : Except PyError String := do
  let nodeType ← dgetStr point "node_type"
  let pbIdVal ←
    match dget point "pb_id" with
    | some v => Except.ok v
    | none => Except.error (.keyError "pb_id")
  let pbIdStr :=
    match pbIdVal with
    | .str s => s
    | .int z => toString z
    | .rat q => toString q
  let types : List (String × String) :=
    [(".names", "lut"), (".latch", "ff"), (".input", "in"), (".output", "out")]
  match aget types nodeType with
  | some short => .ok (short ++ "[" ++ pbIdStr ++ "]")
  | none => .ok (nodeType ++ "[" ++ pbIdStr ++ "]")

/-- Path statistics computed by `PathBuilder.get_statistics`.  The
source stores the three times as strings formatted at the configured
precision; the exact rationals are kept here (formatting is
presentation), and `subckts` is kept as the deduplicated list that
Python turns into an unordered `set` before joining. -/
structure PathStats where
  subckts : List String
  nb_points : ℕ
  nb_pbs : ℤ
  path_time : ℚ
  net_time : ℚ
  pb_time : ℚ
deriving DecidableEq, Repr, Inhabited

/-- The pairwise walk of `get_statistics`: for each point after the
first, its increment goes to block time when the physical-block id
equals the previous one, and to net time (counting a transition)
otherwise; the node type is appended to the sub-circuit list. -/
def statsLoop (prev : PVal) (pts : List Dict) (nbPbs : ℤ) (netT pbT : ℚ)
    (sub : List String) : Except PyError (ℤ × ℚ × ℚ × List String) :=
  match pts with
  | [] => .ok (nbPbs, netT, pbT, sub)
  | d :: ds => do
      let pb ←
        match dget d "pb_id" with
        | some v => Except.ok v
        | none => Except.error (.keyError "pb_id")
      let ti ← dgetRat d "t_incr"
      let nt ← dgetStr d "node_type"
      if pb = prev then statsLoop pb ds nbPbs netT (pbT + ti) (sub ++ [nt])
      else statsLoop pb ds (nbPbs + 1) (netT + ti) pbT (sub ++ [nt])

/-- Method `PathBuilder.get_statistics`: the pairwise walk seeded with
the first point, the final conditional decrement of the inter-block
counter, and the sub-circuit summary (non-dotted node types of all but
the last walked point, deduplicated). -/
def get_statistics (points : List Dict) : Except PyError PathStats := do
  match points with
  | [] => .error (.indexError "list index out of range")
  | first :: rest =>
    let tSumLast ← dgetRat points.getLastI "t_sum"
    let tSumFirst ← dgetRat first "t_sum"
    let prev ←
      match dget first "pb_id" with
      | some v => Except.ok v
      | none => Except.error (.keyError "pb_id")
    let (nbPbs, netT, pbT, sub) ← statsLoop prev rest 0 0 0 []
    let nbPbs := nbPbs - (if 1 ≤ nbPbs then 1 else 0)
    let subckts := (sub.dropLast.filter (fun s => ¬ s.startsWith ".")).eraseDups
    .ok { subckts := subckts
          nb_points := (rest.dropLast).length
          nb_pbs := nbPbs
          path_time := tSumLast - tSumFirst
          net_time := netT
          pb_time := pbT }

/-- The consecutive-point distance walk of `get_distances`. -/
def distLoop (x1 y1 : ℤ) (pts : List Dict) (dw dh : ℤ) :
    Except PyError (ℤ × ℤ) :=
  match pts with
  | [] => .ok (dw, dh)
  | d :: ds => do
      let x2 ← dgetInt d "x"
      let y2 ← dgetInt d "y"
      distLoop x2 y2 ds (dw + |x1 - x2|) (dh + |y1 - y2|)

/-- Result of `get_distances`: start/end coordinate strings, Manhattan
distance, block-to-block distance, and the square of the Euclidean
distance (the source stores `np.sqrt` of it; the square is kept so the
model stays in exact arithmetic — no claim depends on the root). -/
structure PathDists where
  start_coords : String
  end_coords : String
  manhattan_dist : ℤ
  pb2pb_dist : ℤ
  euclidean_sq : ℤ
deriving DecidableEq, Repr, Inhabited

/-- Method `PathBuilder.get_distances`. -/
def get_distances (points : List Dict) : Except PyError PathDists := do
  match points with
  | [] => .error (.indexError "list index out of range")
  | first :: rest =>
    let x1 ← dgetInt first "x"
    let y1 ← dgetInt first "y"
    let lastD := points.getLastI
    let x2 ← dgetInt lastD "x"
    let y2 ← dgetInt lastD "y"
    let mw := |x1 - x2|
    let mh := |y1 - y2|
    let (dw, dh) ← distLoop x1 y1 rest 0 0
    let sc ← dgetStr first "pb_coords"
    let ec ← dgetStr lastD "pb_coords"
    .ok { start_coords := sc, end_coords := ec
          manhattan_dist := mw + mh, pb2pb_dist := dw + dh
          euclidean_sq := mw ^ 2 + mh ^ 2 }

/-- The `PathBuilder` object after construction.  The three header
times are stored as exact rationals (the source formats them to strings
at the configured precision). -/
structure PathBuilderObj where
  id : Option ℤ
  start_point : Option String
  end_point : Option String
  ptype : Option String
  slack_time : ℚ
  arrival_time : ℚ
  required_time : ℚ
  start_inst : String
  end_inst : String
  start_pb : String
  end_pb : String
  stats : PathStats
  dists : PathDists
  points : List Dict
deriving DecidableEq, Repr, Inhabited

/-- Python f-string formatting of a header time: formatting `None`
raises a `TypeError`. -/
def reqTime : Option ℚ → Except PyError ℚ
  | some q => .ok q
  | none =>
      .error (.typeError "unsupported format string passed to NoneType.__format__")

/-- The constructor `PathBuilder.__init__`: copy and format the header
attributes, then run `get_block_place` (point annotation and
start/end naming), `get_statistics` and `get_distances`.  The
annotation loop mutates both the path point dicts and the LUT entries;
the updated LUT is returned alongside the object. -/
def PathBuilder (p : PyPath) (blif : Option (List (Option BlifModel)))
    (lut : Lut) (_precision : ℕ := 3) :
    Except PyError (PathBuilderObj × Lut) := do
  let slackT ← reqTime p.slackTime
  let arrT ← reqTime p.arrivalTime
  let reqT ← reqTime p.requiredTime
  let (pts, lut') ← get_block_place_points lut p.points
  match pts with
  | [] => .error (.indexError "list index out of range")
  | firstD :: _ =>
    let lastD := pts.getLastI
    let startInst ← get_instance_name blif firstD
    let endInst ← get_instance_name blif lastD
    let startPb ← get_pb_name firstD
    let endPb ← get_pb_name lastD
    let stats ← get_statistics pts
    let dists ← get_distances pts
    .ok ({ id := p.id, start_point := p.startpoint, end_point := p.endpoint
           ptype := p.ptype, slack_time := slackT, arrival_time := arrT
           required_time := reqT, start_inst := startInst, end_inst := endInst
           start_pb := startPb, end_pb := endPb, stats := stats, dists := dists
           points := pts }, lut')

/-- The output loop of `report_place_timing.main` (the `--output`
branch): build a `PathBuilder` for every parsed path in order, with no
BLIF model and no exception handler — the loop body is not wrapped in
any `try`, so the first raised error propagates out of `main`. -/
def reportPlaceTimingBatch (lut : Lut) :
    List PyPath → Except PyError (List PathBuilderObj × Lut)
  | [] => .ok ([], lut)
  | p :: ps => do
      let (r, lut') ← PathBuilder p none lut 3
      let (rs, lut'') ← reportPlaceTimingBatch lut' ps
      .ok (r :: rs, lut'')

/-- The derived metric `ratio_dist` of
`PathFormatter.extract_statistics`: the elementwise pandas division
`manhattan_dist / pb2pb_dist`.  A zero denominator produces a
non-finite float (NaN for 0/0, signed infinity otherwise), modelled as
`none`; there is no special case in the source. -/
def ratio_dist (manhattan pb2pb : ℚ) : Option ℚ :=
  if pb2pb = 0 then none else some (manhattan / pb2pb)

/- ====================================================================
   Shared helpers and concrete fixtures for the claim theorems
   ==================================================================== -/

/-- Extract the payload of a successful computation (used to name the
value a concrete run evaluates to). -/
def exOk {α : Type} [Inhabited α] (e : Except PyError α) : α :=
  e.toOption.getD default

/-- A small packed-netlist tree: two top-level physical blocks, the
first (`clb[0]`, placed at the origin) containing the descendants
`sigA` and `sigA2`, the second (`clb[1]`, placed at (3,4)) containing
`sigB`. -/
def netFixture : List XmlBlock :=
  [⟨"top1", "clb[0]", [⟨"sigA", "lut[0]", []⟩, ⟨"sigA2", "lut[1]", []⟩]⟩,
   ⟨"top2", "clb[1]", [⟨"sigB", "lut[2]", []⟩]⟩]

/-- The matching placement-coordinate table. -/
def placeFixture : VprPlace := ⟨[("top1", (0, 0, 0)), ("top2", (3, 4, 0))]⟩

/-- The LUT `create_lut` builds from the two fixtures. -/
def lutFixture : Lut :=
  [(["top1", "sigA", "sigA2"], { pb_id := "0", x := 0, y := 0, pb_coords := none }),
   (["top2", "sigB"], { pb_id := "1", x := 3, y := 4, pb_coords := none })]

/-- The fixture LUT is exactly what `create_lut` produces. -/
theorem lutFixture_from_source : create_lut netFixture placeFixture = .ok lutFixture := by
  with_unfolding_all rfl

/-- A report-parser point dict (the shape `parse` stores). -/
def mkRptPoint (n ty : String) (ti ts : ℚ) : Dict :=
  [("point", .str n), ("node_type", .str ty), ("t_incr", .rat ti), ("t_sum", .rat ts)]

/-- A three-point path sigA → sigB → sigA2 whose start and end blocks
sit at the same coordinates. -/
def pathABA : PyPath :=
  { id := some 1, startpoint := some "sigA.out[0]", endpoint := some "sigA2.out[0]"
    ptype := some "setup", arrivalTime := some 2, requiredTime := some 3
    slackTime := some 1
    points := [mkRptPoint "sigA.out[0]" ".ff" 1 1,
               mkRptPoint "sigB.in[0]" ".names" 2 3,
               mkRptPoint "sigA2.out[0]" ".names" 1 4] }

/-- A path whose first point resolves to no physical block. -/
def pathUnresolved : PyPath :=
  { pathABA with
      startpoint := some "nowhere.out[0]"
      points := [mkRptPoint "nowhere.out[0]" ".names" 1 1,
                 mkRptPoint "sigB.in[0]" ".names" 2 3] }

/-- A second unresolvable path with a different offending point name. -/
def pathUnresolved2 : PyPath :=
  { pathABA with
      startpoint := some "elsewhere.in[0]"
      points := [mkRptPoint "elsewhere.in[0]" ".latch" 1 1,
                 mkRptPoint "sigB.in[0]" ".names" 2 3] }

/-- The object/LUT pair the builder produces on `pathABA`. -/
def builtABA : PathBuilderObj × Lut := exOk (PathBuilder pathABA none lutFixture 3)

/-- A two-path timing report whose arrival times are out of the
expected worst-first order (1 then 2). -/
def rptTwoPaths : List RptLine :=
  [.pathId 1, .startpoint "a", .endpoint "y",
   .point ⟨"a", ".ff", none, none, 1, 1⟩,
   .point ⟨"y", ".ff", none, none, 1, 2⟩,
   .arrival 1, .slack "setup" 5,
   .pathId 2, .startpoint "a", .endpoint "y",
   .point ⟨"a", ".ff", none, none, 1, 1⟩,
   .point ⟨"y", ".ff", none, none, 1, 2⟩,
   .arrival 2, .slack "setup" 4]

/-- The parser object built from `rptTwoPaths`. -/
def tpTwoPaths : TimingParserObj := exOk (initTimingParser none rptTwoPaths)

/-- Inversion of the constructor pipeline: a successful construction
comes from a successful parse and a successful statistics pass. -/
theorem initTimingParser_ok (nb0 : Option ℤ) (lines : List RptLine)
    (tp : TimingParserObj) (h : initTimingParser nb0 lines = .ok tp) :
    parseTiming nb0 lines = .ok tp.rpt ∧ get_stats tp.rpt.paths = .ok tp.stats := by
  unfold initTimingParser at h
  cases hp : parseTiming nb0 lines with
  | error e => rw [hp] at h; exact absurd h (by simp [bind, Except.bind])
  | ok rpt =>
      rw [hp] at h
      simp only [bind, Except.bind] at h
      cases hs : get_stats rpt.paths with
      | error e => rw [hs] at h; exact absurd h (by simp)
      | ok stats =>
          rw [hs] at h
          simp only [Except.ok.injEq] at h
          subst h
          exact ⟨rfl, hs⟩

/-- A successful `parse` ends by overwriting `nb_paths` with the length
of the path list. -/
theorem parseTiming_ok_nbPaths (nb0 : Option ℤ) (lines : List RptLine)
    (rpt : TimingRpt) (h : parseTiming nb0 lines = .ok rpt) :
    rpt.nbPaths = some (rpt.paths.length : ℤ) := by
  unfold parseTiming at h
  cases hr : runLines nb0 initTState lines with
  | error e => rw [hr] at h; exact absurd h (by simp [bind, Except.bind])
  | ok stb =>
      obtain ⟨st, brk⟩ := stb
      rw [hr] at h
      simp only [bind, Except.bind, Except.ok.injEq] at h
      subst h
      rfl

/- ====================================================================
   Claim C10
   ==================================================================== -/

/-- Claim C10: after `VprReportTimingParser` construction completes, the
reported length (`nb_paths`, returned by `__len__`) equals the number of
`Path` objects stored in `paths`, for every input and every value of the
optional early-stop bound: the bound is overwritten at the end of
parsing with the count of parsed paths. -/
theorem C10_nb_paths_is_length (nb0 : Option ℤ) (lines : List RptLine)
    (tp : TimingParserObj) (h : initTimingParser nb0 lines = .ok tp) :
    tp.rpt.nbPaths = some (tp.rpt.paths.length : ℤ) :=
  parseTiming_ok_nbPaths nb0 lines tp.rpt (initTimingParser_ok nb0 lines tp h).1

/-- Witness for C10 at a concrete report and bound. -/
theorem C10_nb_paths_is_length_witness :
    tpTwoPaths.rpt.nbPaths = some (tpTwoPaths.rpt.paths.length : ℤ) :=
  C10_nb_paths_is_length none rptTwoPaths tpTwoPaths (by with_unfolding_all rfl)

/- ====================================================================
   Claim C9
   ==================================================================== -/

/-- Auxiliary: the last element of a non-empty list, in `getLast?` and
`getLastD` form. -/
theorem getLast?_cons_getLastD {α : Type} :
    ∀ (rest : List α) (p : α), (p :: rest).getLast? = some (rest.getLastD p)
  | [], _ => rfl
  | q :: rest, p => by
      rw [List.getLast?_cons_cons, getLast?_cons_getLastD rest q,
        List.getLastD_cons]

/-- Claim C9 (amended): after the parser finishes on a report with at
least one path, the statistics record the first path arrival time as
highest and the last path arrival time as lowest, and the deviation
metric is `np.abs(high) - np.abs(low)` — the difference of the absolute
values (a signed quantity), which coincides with the absolute-value
difference `|high - low|` only when the report is sorted worst-first. -/
theorem C9_stats_deviation (nb0 : Option ℤ) (lines : List RptLine)
    (tp : TimingParserObj) (h : initTimingParser nb0 lines = .ok tp)
    (hne : tp.rpt.paths ≠ []) :
    ∃ p0 pn high low,
      tp.rpt.paths.head? = some p0 ∧ tp.rpt.paths.getLast? = some pn ∧
      p0.arrivalTime = some high ∧ pn.arrivalTime = some low ∧
      tp.stats = some { highestArrivalTime := high, lowestArrivalTime := low
                        arrivalTimeDeviation := |high| - |low| } := by
  obtain ⟨-, hs⟩ := initTimingParser_ok nb0 lines tp h
  cases hps : tp.rpt.paths with
  | nil => exact absurd hps hne
  | cons p rest =>
      have hs2 :
          (match p.arrivalTime, (rest.getLastD p).arrivalTime with
           | some high, some low =>
               Except.ok (some { highestArrivalTime := high
                                 lowestArrivalTime := low
                                 arrivalTimeDeviation := |high| - |low| })
           | _, _ =>
               Except.error
                 (PyError.typeError "bad operand type for abs function: NoneType")) =
            Except.ok tp.stats := by rw [hps] at hs; exact hs
      cases hh : p.arrivalTime with
      | none =>
          rw [hh] at hs2
          cases hl : (rest.getLastD p).arrivalTime <;> rw [hl] at hs2 <;>
            simp at hs2
      | some high =>
          rw [hh] at hs2
          cases hl : (rest.getLastD p).arrivalTime with
          | none => rw [hl] at hs2; simp at hs2
          | some low =>
              rw [hl] at hs2
              simp only [Except.ok.injEq] at hs2
              refine ⟨p, rest.getLastD p, high, low, ?_, ?_, hh, hl, hs2.symm⟩
              · rfl
              · exact getLast?_cons_getLastD rest p

/-- Witness for C9 (amended) at a concrete report. -/
theorem C9_stats_deviation_witness :
    ∃ p0 pn high low,
      tpTwoPaths.rpt.paths.head? = some p0 ∧
      tpTwoPaths.rpt.paths.getLast? = some pn ∧
      p0.arrivalTime = some high ∧ pn.arrivalTime = some low ∧
      tpTwoPaths.stats = some { highestArrivalTime := high
                                lowestArrivalTime := low
                                arrivalTimeDeviation := |high| - |low| } :=
  C9_stats_deviation none rptTwoPaths tpTwoPaths (by with_unfolding_all rfl)
    (by with_unfolding_all decide)

/-- Counterexample for C9 as stated: on a report whose two arrival
times are 1 then 2, the recorded deviation is `|1| - |2| = -1`, while
the absolute-value difference of the two arrival times is
`|1 - 2| = 1`; the code records a signed difference of absolute values,
not the absolute difference. -/
theorem C9_counterexample :
    (initTimingParser none rptTwoPaths).map (fun tp => tp.stats) =
      .ok (some { highestArrivalTime := 1, lowestArrivalTime := 2
                  arrivalTimeDeviation := -1 }) ∧
    ((-1 : ℚ) ≠ |(1 : ℚ) - 2|) := by
  refine ⟨by with_unfolding_all rfl, by norm_num⟩

/- ====================================================================
   Claim C8
   ==================================================================== -/

/-- Claim C8: resolving a point name through the locator twice in
succession yields the identical (id, coordinates) result both times.
The method body of `get_id_coords` only reads `self._lut`, so the
state-passing embedding returns the locator unchanged, and the second
call — made on the state the first call returns — produces the same
result. -/
theorem C8_get_id_coords_idempotent (loc : PBLocator) (pointName : String) :
    (loc.get_id_coords_call pointName).2 = loc ∧
    ((loc.get_id_coords_call pointName).2.get_id_coords_call pointName).1 =
      (loc.get_id_coords_call pointName).1 :=
  ⟨rfl, rfl⟩

/- ====================================================================
   Claim C6
   ==================================================================== -/

/-- The netlist scenario text of the spec. -/
def c6Text : String := ".model top\n.inputs a\n.outputs y\n.names a y\n1 1\n.end\n"

/-- Claim C6: parsing the scenario netlist text yields exactly one
model, named `top`, containing exactly one logic node keyed by its
output name `y`, whose pin table maps `in[0]` to `a` and `out[0]` to
`y` (the cover line `1 1` matches no recognised statement and is
ignored). -/
theorem C6_blif_scenario :
    blifParseText c6Text =
      .ok [some { name := "top", inputs := ["a"], outputs := ["y"]
                  names := [("y", [("pins", .pinMap [("in[0]", "a"), ("out[0]", "y")])])]
                  latches := [], subckts := [], conns := [] }] := by
  with_unfolding_all rfl

/- ====================================================================
   Claim C2
   ==================================================================== -/

/-- Claim C2 (amended): a point name the locator cannot resolve makes
`PathBuilder.get_block_place` subscript `None`, raising an uncaught
`TypeError`; the batch loop of `report_place_timing.main` has no
exception handler, so the whole batch aborts at the first failing path —
no output is produced for the remaining paths and the error propagates
out of `main`, terminating the tool. -/
theorem C2_error_aborts_batch (lut : Lut) (p : PyPath) (ps : List PyPath)
    (e : PyError) (h : PathBuilder p none lut 3 = .error e) :
    reportPlaceTimingBatch lut (p :: ps) = .error e := by
  unfold reportPlaceTimingBatch
  rw [h]
  rfl

/-- Witness for C2 (amended): the concrete unresolvable path aborts the
concrete two-path batch. -/
theorem C2_error_aborts_batch_witness :
    reportPlaceTimingBatch lutFixture (pathUnresolved :: [pathABA]) =
      .error (.typeError "NoneType object does not support item assignment") :=
  C2_error_aborts_batch lutFixture pathUnresolved [pathABA]
    (.typeError "NoneType object does not support item assignment")
    (by with_unfolding_all rfl)

/-- Counterexample for C2 as stated: the batch over an unresolvable
path and a resolvable one returns a bare `TypeError` instead of a result
list — the caller does not continue with the remaining paths, and the
error is the constant interpreter message, which does not identify the
offending point: two paths with different offending point names raise
the identical error value. -/
theorem C2_counterexample :
    reportPlaceTimingBatch lutFixture [pathUnresolved, pathABA] =
      .error (.typeError "NoneType object does not support item assignment") ∧
    PathBuilder pathUnresolved2 none lutFixture 3 =
      .error (.typeError "NoneType object does not support item assignment") ∧
    pathUnresolved ≠ pathUnresolved2 :=
  ⟨by with_unfolding_all rfl, by with_unfolding_all rfl, by decide⟩

/- ====================================================================
   Frame lemmas for the annotation loop (claims C3, C4)
   ==================================================================== -/

/-- Reading a key other than the one just assigned is unchanged. -/
theorem dget_dset_ne (d : Dict) (k k2 : String) (v : PVal) (h : k ≠ k2) :
    dget (dset d k v) k2 = dget d k2 := by
  induction d with
  | nil => simp [dset, dget, h]
  | cons kv rest ih =>
      obtain ⟨k3, v3⟩ := kv
      by_cases h3 : k3 = k
      · subst h3
        simp [dset, dget, h]
      · simp only [dset, if_neg h3]
        by_cases h2 : k3 = k2
        · simp [dget, h2]
        · simp [dget, h2, ih]

/-- The `point.update(id_coords)` merge only touches the four keys of
`id_coords`. -/
theorem updatePoint_frame (d : Dict) (info : PBInfo) (k : String)
    (h1 : k ≠ "pb_id") (h2 : k ≠ "x") (h3 : k ≠ "y") (h4 : k ≠ "pb_coords") :
    dget (updatePoint d info) k = dget d k := by
  unfold updatePoint
  rw [dget_dset_ne _ _ _ _ (Ne.symm h4), dget_dset_ne _ _ _ _ (Ne.symm h3),
    dget_dset_ne _ _ _ _ (Ne.symm h2), dget_dset_ne _ _ _ _ (Ne.symm h1)]

/-- The part of a LUT that is fixed at `create_lut` time: name sets,
block ids and coordinates (everything except the `pb_coords` cache). -/
def lutSkeleton (lut : Lut) : List (List String × String × ℤ × ℤ) :=
  lut.map (fun e => (e.1, e.2.pb_id, e.2.x, e.2.y))

/-- The resolve-then-mutate step only rewrites the `pb_coords` cache of
the matched entry. -/
theorem get_id_coords_update_skeleton (lut : Lut) (pn : String)
    (info : PBInfo) (lut2 : Lut)
    (h : get_id_coords_update lut pn = some (info, lut2)) :
    lutSkeleton lut2 = lutSkeleton lut := by
  induction lut generalizing info lut2 with
  | nil => simp [get_id_coords_update] at h
  | cons e rest ih =>
      obtain ⟨bnames, i⟩ := e
      unfold get_id_coords_update at h
      by_cases hm : dropLastSeg pn ∈ bnames
      · simp only [if_pos hm, Option.some.injEq, Prod.mk.injEq] at h
        obtain ⟨-, hlut⟩ := h
        subst hlut
        simp [lutSkeleton]
      · simp only [if_neg hm] at h
        cases hr : get_id_coords_update rest pn with
        | none => rw [hr] at h; simp at h
        | some pr =>
            obtain ⟨i2, rest2⟩ := pr
            rw [hr] at h
            simp only [Option.map, Option.some.injEq, Prod.mk.injEq] at h
            obtain ⟨-, hl⟩ := h
            subst hl
            simp only [lutSkeleton, List.map_cons, List.cons.injEq]
            exact ⟨trivial, by simpa [lutSkeleton] using ih i2 rest2 hr⟩

/-- Frame property of the annotation loop of `get_block_place`: the LUT
skeleton is preserved (only `pb_coords` caches change), the point list
keeps its length, and every point keeps the values of all keys other
than the four annotation keys. -/
theorem get_block_place_points_frame (pts : List Dict) (lut : Lut)
    (pts2 : List Dict) (lut2 : Lut)
    (h : get_block_place_points lut pts = .ok (pts2, lut2)) :
    lutSkeleton lut2 = lutSkeleton lut ∧ pts2.length = pts.length ∧
      ∀ pr ∈ pts2.zip pts, ∀ k : String,
        k ∉ (["pb_id", "x", "y", "pb_coords"] : List String) →
        dget pr.1 k = dget pr.2 k := by
  induction pts generalizing lut pts2 with
  | nil =>
      unfold get_block_place_points at h
      simp only [Except.ok.injEq, Prod.mk.injEq] at h
      obtain ⟨h1, h2⟩ := h
      subst h1
      subst h2
      simp
  | cons d ds ih =>
      unfold get_block_place_points at h
      simp only [bind, Except.bind] at h
      cases hp : dgetStr d "point" with
      | error e => rw [hp] at h; simp at h
      | ok pname =>
          rw [hp] at h
          dsimp only at h
          cases hu : get_id_coords_update lut pname with
          | none => rw [hu] at h; simp at h
          | some pr =>
              obtain ⟨info, lut1⟩ := pr
              rw [hu] at h
              dsimp only at h
              cases hrec : get_block_place_points lut1 ds with
              | error e => rw [hrec] at h; simp at h
              | ok pl =>
                  obtain ⟨ds2, lutEnd⟩ := pl
                  rw [hrec] at h
                  dsimp only at h
                  simp only [Except.ok.injEq, Prod.mk.injEq] at h
                  obtain ⟨hpts, hlut⟩ := h
                  subst hpts
                  subst hlut
                  obtain ⟨hskel, hlen, hframe⟩ := ih lut1 ds2 hrec
                  refine ⟨?_, by simp [hlen], ?_⟩
                  · rw [hskel, get_id_coords_update_skeleton lut pname info lut1 hu]
                  · intro pr hpr k hk
                    simp only [List.zip_cons_cons, List.mem_cons] at hpr
                    rcases hpr with hpr | hpr
                    · subst hpr
                      simp only [List.mem_cons, List.mem_singleton] at hk
                      push_neg at hk
                      obtain ⟨k1, k2, k3, k4⟩ := hk
                      exact updatePoint_frame d info k k1 k2 k3 (by simpa using k4)
                    · exact hframe pr hpr k hk

/-- Inversion of the `PathBuilder` constructor: a successful build comes
from a successful annotation pass, whose outputs are the stored points
and the returned LUT, followed by successful statistics and distance
passes on those points. -/
theorem PathBuilder_ok_inv (p : PyPath) (blif : Option (List (Option BlifModel)))
    (lut : Lut) (prec : ℕ) (r : PathBuilderObj) (lut2 : Lut)
    (h : PathBuilder p blif lut prec = .ok (r, lut2)) :
    get_block_place_points lut p.points = .ok (r.points, lut2) ∧
    get_statistics r.points = .ok r.stats ∧
    get_distances r.points = .ok r.dists := by
  unfold PathBuilder at h
  simp only [bind, Except.bind] at h
  cases h1 : reqTime p.slackTime with
  | error e => rw [h1] at h; simp at h
  | ok slackT =>
  rw [h1] at h
  dsimp only at h
  cases h2 : reqTime p.arrivalTime with
  | error e => rw [h2] at h; simp at h
  | ok arrT =>
  rw [h2] at h
  dsimp only at h
  cases h3 : reqTime p.requiredTime with
  | error e => rw [h3] at h; simp at h
  | ok reqT =>
  rw [h3] at h
  dsimp only at h
  cases h4 : get_block_place_points lut p.points with
  | error e => rw [h4] at h; simp at h
  | ok pl =>
  obtain ⟨pts, lut1⟩ := pl
  rw [h4] at h
  dsimp only at h
  cases pts with
  | nil => simp at h
  | cons firstD restD =>
  dsimp only at h
  cases h5 : get_instance_name blif firstD with
  | error e => rw [h5] at h; simp at h
  | ok startInst =>
  rw [h5] at h
  dsimp only at h
  cases h6 : get_instance_name blif ((firstD :: restD).getLastI) with
  | error e => rw [h6] at h; simp at h
  | ok endInst =>
  rw [h6] at h
  dsimp only at h
  cases h7 : get_pb_name firstD with
  | error e => rw [h7] at h; simp at h
  | ok startPb =>
  rw [h7] at h
  dsimp only at h
  cases h8 : get_pb_name ((firstD :: restD).getLastI) with
  | error e => rw [h8] at h; simp at h
  | ok endPb =>
  rw [h8] at h
  dsimp only at h
  cases h9 : get_statistics (firstD :: restD) with
  | error e => rw [h9] at h; simp at h
  | ok stats =>
  rw [h9] at h
  dsimp only at h
  cases h10 : get_distances (firstD :: restD) with
  | error e => rw [h10] at h; simp at h
  | ok dists =>
  rw [h10] at h
  dsimp only at h
  simp only [Except.ok.injEq, Prod.mk.injEq] at h
  obtain ⟨hr, hl⟩ := h
  subst hl
  subst hr
  exact ⟨rfl, h9, h10⟩

/- ====================================================================
   Claim C3
   ==================================================================== -/

/-- Claim C3 (amended): enrichment reads the already-built locator and
netlist but is not write-free: it mutates the input path point dicts in
place (annotating them with `pb_id`, `x`, `y`, `pb_coords`) and caches
a `pb_coords` string inside the matched locator entries.  What does
hold: the locator skeleton (name sets, block ids, coordinates) is
unchanged, the point list keeps its length, and every key other than
the four annotation keys keeps its value in every point. -/
theorem C3_enrichment_frame (p : PyPath) (blif : Option (List (Option BlifModel)))
    (lut : Lut) (prec : ℕ) (r : PathBuilderObj) (lut2 : Lut)
    (h : PathBuilder p blif lut prec = .ok (r, lut2)) :
    lutSkeleton lut2 = lutSkeleton lut ∧ r.points.length = p.points.length ∧
      ∀ pr ∈ r.points.zip p.points, ∀ k : String,
        k ∉ (["pb_id", "x", "y", "pb_coords"] : List String) →
        dget pr.1 k = dget pr.2 k :=
  get_block_place_points_frame p.points lut r.points lut2
    (PathBuilder_ok_inv p blif lut prec r lut2 h).1

/-- Witness for C3 (amended) on the three-point fixture path. -/
theorem C3_enrichment_frame_witness :
    lutSkeleton builtABA.2 = lutSkeleton lutFixture ∧
    builtABA.1.points.length = pathABA.points.length ∧
      ∀ pr ∈ builtABA.1.points.zip pathABA.points, ∀ k : String,
        k ∉ (["pb_id", "x", "y", "pb_coords"] : List String) →
        dget pr.1 k = dget pr.2 k :=
  C3_enrichment_frame pathABA none lutFixture 3 builtABA.1 builtABA.2
    (by with_unfolding_all rfl)

/-- Counterexample for C3 as stated: on the fixture path the
construction succeeds, but the stored point dicts differ from the input
point dicts (they gained the annotation keys), and the returned locator
table differs from the input one (the matched entries gained a cached
`pb_coords` string): enrichment does not leave the input path point
records or the locator lookup table unchanged. -/
theorem C3_counterexample :
    PathBuilder pathABA none lutFixture 3 = .ok builtABA ∧
    builtABA.1.points ≠ pathABA.points ∧ builtABA.2 ≠ lutFixture := by
  refine ⟨by with_unfolding_all rfl, by with_unfolding_all decide,
    by with_unfolding_all decide⟩

/- ====================================================================
   Claim C4
   ==================================================================== -/

/-- The distance walk accumulates absolute values, so it never reduces
its accumulators. -/
theorem distLoop_nonneg (pts : List Dict) (x1 y1 : ℤ) (dw dh dw2 dh2 : ℤ)
    (hw : 0 ≤ dw) (hh : 0 ≤ dh)
    (h : distLoop x1 y1 pts dw dh = .ok (dw2, dh2)) : 0 ≤ dw2 ∧ 0 ≤ dh2 := by
  induction pts generalizing x1 y1 dw dh with
  | nil =>
      unfold distLoop at h
      simp only [Except.ok.injEq, Prod.mk.injEq] at h
      obtain ⟨h1, h2⟩ := h
      subst h1; subst h2
      exact ⟨hw, hh⟩
  | cons d ds ih =>
      unfold distLoop at h
      simp only [bind, Except.bind] at h
      cases hx : dgetInt d "x" with
      | error e => rw [hx] at h; simp at h
      | ok x2 =>
      rw [hx] at h
      dsimp only at h
      cases hy : dgetInt d "y" with
      | error e => rw [hy] at h; simp at h
      | ok y2 =>
      rw [hy] at h
      dsimp only at h
      exact ih x2 y2 _ _ (by positivity) (by positivity) h

/-- Inversion of `get_distances`. -/
theorem get_distances_inv (pts : List Dict) (dists : PathDists)
    (h : get_distances pts = .ok dists) :
    ∃ firstD restD x1 y1 x2 y2 dw dh,
      pts = firstD :: restD ∧
      dgetInt firstD "x" = .ok x1 ∧ dgetInt firstD "y" = .ok y1 ∧
      dgetInt pts.getLastI "x" = .ok x2 ∧ dgetInt pts.getLastI "y" = .ok y2 ∧
      distLoop x1 y1 restD 0 0 = .ok (dw, dh) ∧
      dists.manhattan_dist = |x1 - x2| + |y1 - y2| ∧
      dists.pb2pb_dist = dw + dh := by
  unfold get_distances at h
  cases pts with
  | nil => simp at h
  | cons firstD restD =>
  simp only [bind, Except.bind] at h
  cases h1 : dgetInt firstD "x" with
  | error e => rw [h1] at h; simp at h
  | ok x1 =>
  rw [h1] at h
  dsimp only at h
  cases h2 : dgetInt firstD "y" with
  | error e => rw [h2] at h; simp at h
  | ok y1 =>
  rw [h2] at h
  dsimp only at h
  cases h3 : dgetInt ((firstD :: restD).getLastI) "x" with
  | error e => rw [h3] at h; simp at h
  | ok x2 =>
  rw [h3] at h
  dsimp only at h
  cases h4 : dgetInt ((firstD :: restD).getLastI) "y" with
  | error e => rw [h4] at h; simp at h
  | ok y2 =>
  rw [h4] at h
  dsimp only at h
  cases h5 : distLoop x1 y1 restD 0 0 with
  | error e => rw [h5] at h; simp at h
  | ok dwh =>
  obtain ⟨dw, dh⟩ := dwh
  rw [h5] at h
  dsimp only at h
  cases h6 : dgetStr firstD "pb_coords" with
  | error e => rw [h6] at h; simp at h
  | ok sc =>
  rw [h6] at h
  dsimp only at h
  cases h7 : dgetStr ((firstD :: restD).getLastI) "pb_coords" with
  | error e => rw [h7] at h; simp at h
  | ok ec =>
  rw [h7] at h
  dsimp only at h
  simp only [Except.ok.injEq] at h
  subst h
  exact ⟨firstD, restD, x1, y1, x2, y2, dw, dh, rfl, h1, h2, rfl, rfl, h5, rfl, rfl⟩

/-- Claim C4 (amended): for every successfully built path, both
distances are non-negative, so `ratio_dist` is non-negative whenever the
pandas division defines it; when the start and end coordinates are
identical the Manhattan distance is 0 and `ratio_dist` equals 0 (not
1.0) whenever the point-to-point distance is non-zero — the source has
no special case for coinciding endpoints. -/
theorem C4_ratio_dist (p : PyPath) (blif : Option (List (Option BlifModel)))
    (lut : Lut) (prec : ℕ) (r : PathBuilderObj) (lut2 : Lut)
    (h : PathBuilder p blif lut prec = .ok (r, lut2)) :
    0 ≤ r.dists.manhattan_dist ∧ 0 ≤ r.dists.pb2pb_dist ∧
    (∀ q : ℚ, ratio_dist (r.dists.manhattan_dist : ℚ) (r.dists.pb2pb_dist : ℚ) =
        some q → 0 ≤ q) ∧
    (dget r.points.headI "x" = dget r.points.getLastI "x" →
     dget r.points.headI "y" = dget r.points.getLastI "y" →
     r.dists.manhattan_dist = 0 ∧
       ((r.dists.pb2pb_dist : ℚ) ≠ 0 →
        ratio_dist (r.dists.manhattan_dist : ℚ) (r.dists.pb2pb_dist : ℚ) =
          some 0)) := by
  obtain ⟨-, -, hd⟩ := PathBuilder_ok_inv p blif lut prec r lut2 h
  obtain ⟨firstD, restD, x1, y1, x2, y2, dw, dh, hpts, hx1, hy1, hx2, hy2,
    hloop, hman, hpb⟩ := get_distances_inv r.points r.dists hd
  have hman0 : 0 ≤ r.dists.manhattan_dist := by rw [hman]; positivity
  have hpb0 : 0 ≤ r.dists.pb2pb_dist := by
    obtain ⟨hw, hh2⟩ := distLoop_nonneg restD x1 y1 0 0 dw dh le_rfl le_rfl hloop
    rw [hpb]; omega
  refine ⟨hman0, hpb0, ?_, ?_⟩
  · intro q hq
    unfold ratio_dist at hq
    by_cases hz : (r.dists.pb2pb_dist : ℚ) = 0
    · simp [hz] at hq
    · simp only [if_neg hz] at hq
      obtain rfl := Option.some.injEq .. ▸ hq
      have h1 : (0 : ℚ) ≤ (r.dists.manhattan_dist : ℚ) := by exact_mod_cast hman0
      have h2 : (0 : ℚ) ≤ (r.dists.pb2pb_dist : ℚ) := by exact_mod_cast hpb0
      exact div_nonneg h1 h2
  · intro hxeq hyeq
    have hfirst : r.points.headI = firstD := by rw [hpts]; rfl
    have hxx : x1 = x2 := by
      have e1 : dget firstD "x" = some (.int x1) := by
        unfold dgetInt at hx1
        cases hv : dget firstD "x" with
        | none => rw [hv] at hx1; simp at hx1
        | some v =>
            rw [hv] at hx1
            cases v with
            | int z => simp only [Except.ok.injEq] at hx1; rw [hx1]
            | str s => simp at hx1
            | rat q => simp at hx1
      have e2 : dget r.points.getLastI "x" = some (.int x2) := by
        unfold dgetInt at hx2
        cases hv : dget r.points.getLastI "x" with
        | none => rw [hv] at hx2; simp at hx2
        | some v =>
            rw [hv] at hx2
            cases v with
            | int z => simp only [Except.ok.injEq] at hx2; rw [hx2]
            | str s => simp at hx2
            | rat q => simp at hx2
      rw [hfirst, e1, e2] at hxeq
      simpa using hxeq
    have hyy : y1 = y2 := by
      have e1 : dget firstD "y" = some (.int y1) := by
        unfold dgetInt at hy1
        cases hv : dget firstD "y" with
        | none => rw [hv] at hy1; simp at hy1
        | some v =>
            rw [hv] at hy1
            cases v with
            | int z => simp only [Except.ok.injEq] at hy1; rw [hy1]
            | str s => simp at hy1
            | rat q => simp at hy1
      have e2 : dget r.points.getLastI "y" = some (.int y2) := by
        unfold dgetInt at hy2
        cases hv : dget r.points.getLastI "y" with
        | none => rw [hv] at hy2; simp at hy2
        | some v =>
            rw [hv] at hy2
            cases v with
            | int z => simp only [Except.ok.injEq] at hy2; rw [hy2]
            | str s => simp at hy2
            | rat q => simp at hy2
      rw [hfirst, e1, e2] at hyeq
      simpa using hyeq
    have hm0 : r.dists.manhattan_dist = 0 := by
      rw [hman, hxx, hyy]; simp
    refine ⟨hm0, fun hz => ?_⟩
    unfold ratio_dist
    rw [if_neg hz, hm0]
    simp

/-- Witness for C4 (amended) on the fixture path. -/
theorem C4_ratio_dist_witness :
    0 ≤ builtABA.1.dists.manhattan_dist ∧ 0 ≤ builtABA.1.dists.pb2pb_dist ∧
    (∀ q : ℚ, ratio_dist (builtABA.1.dists.manhattan_dist : ℚ)
        (builtABA.1.dists.pb2pb_dist : ℚ) = some q → 0 ≤ q) ∧
    (dget builtABA.1.points.headI "x" = dget builtABA.1.points.getLastI "x" →
     dget builtABA.1.points.headI "y" = dget builtABA.1.points.getLastI "y" →
     builtABA.1.dists.manhattan_dist = 0 ∧
       ((builtABA.1.dists.pb2pb_dist : ℚ) ≠ 0 →
        ratio_dist (builtABA.1.dists.manhattan_dist : ℚ)
          (builtABA.1.dists.pb2pb_dist : ℚ) = some 0)) :=
  C4_ratio_dist pathABA none lutFixture 3 builtABA.1 builtABA.2
    (by with_unfolding_all rfl)

/-- Counterexample for C4 as stated: on the fixture path the start and
end coordinates are identical, yet `ratio_dist` is 0, not 1.0 (the
numerator, the Manhattan distance, is 0 while the point-to-point
distance is 14). -/
theorem C4_counterexample :
    PathBuilder pathABA none lutFixture 3 = .ok builtABA ∧
    dget builtABA.1.points.headI "x" = dget builtABA.1.points.getLastI "x" ∧
    dget builtABA.1.points.headI "y" = dget builtABA.1.points.getLastI "y" ∧
    ratio_dist (builtABA.1.dists.manhattan_dist : ℚ)
      (builtABA.1.dists.pb2pb_dist : ℚ) = some 0 ∧
    ratio_dist (builtABA.1.dists.manhattan_dist : ℚ)
      (builtABA.1.dists.pb2pb_dist : ℚ) ≠ some 1 := by
  refine ⟨by with_unfolding_all rfl, by with_unfolding_all rfl,
    by with_unfolding_all rfl, by with_unfolding_all rfl,
    by with_unfolding_all decide⟩

/- ====================================================================
   Claim C5
   ==================================================================== -/

/-- Predicate test: an option holding a string value. -/
def isStrVal : Option PVal → Bool
  | some (.str _) => true
  | _ => false

/-- Predicate test: an option holding a float value. -/
def isRatVal : Option PVal → Bool
  | some (.rat _) => true
  | _ => false

/-- Reference walk, written from the words of the spec: "walk points
pairwise; delay accrued while consecutive points share the same
physical-block id is block time; delay accrued when the physical-block
id changes is net time and increments an inter-block counter".  Given
the previous id and the remaining (id, increment) pairs it returns the
raw transition count, the net time and the block time, before the final
decrement. -/
def specWalk (prev : String) : List (String × ℚ) → ℤ × ℚ × ℚ
  | [] => (0, 0, 0)
  | (b, t) :: rest =>
      let r := specWalk b rest
      if b = prev then (r.1, r.2.1, r.2.2 + t) else (r.1 + 1, r.2.1 + t, r.2.2)

/-- Shape of an annotated point dict: a string block id, a float
increment matching the abstract pair, and string/float node-type and
cumulative-delay fields. -/
def ptShapeB (d : Dict) (bt : String × ℚ) : Bool :=
  decide (dget d "pb_id" = some (.str bt.1)) &&
  decide (dget d "t_incr" = some (.rat bt.2)) &&
  isStrVal (dget d "node_type") && isRatVal (dget d "t_sum")

/-- A true `isStrVal` exposes the stored string. -/
theorem isStrVal_exists (v : Option PVal) (h : isStrVal v = true) :
    ∃ s, v = some (.str s) := by
  cases v with
  | none => simp [isStrVal] at h
  | some pv =>
      cases pv with
      | str s => exact ⟨s, rfl⟩
      | rat q => simp [isStrVal] at h
      | int z => simp [isStrVal] at h

/-- A true `isRatVal` exposes the stored float. -/
theorem isRatVal_exists (v : Option PVal) (h : isRatVal v = true) :
    ∃ q, v = some (.rat q) := by
  cases v with
  | none => simp [isRatVal] at h
  | some pv =>
      cases pv with
      | str s => simp [isRatVal] at h
      | rat q => exact ⟨q, rfl⟩
      | int z => simp [isRatVal] at h

/-- The loop of `get_statistics` computes exactly the reference walk
(with left-accumulated sums). -/
theorem statsLoop_spec (bts : List (String × ℚ)) (pts : List Dict)
    (hlen : pts.length = bts.length)
    (hshape : ∀ pr ∈ pts.zip bts, ptShapeB pr.1 pr.2 = true)
    (prev : String) (nb : ℤ) (net pb : ℚ) (sub : List String) :
    ∃ sub2, statsLoop (.str prev) pts nb net pb sub =
      .ok (nb + (specWalk prev bts).1, net + (specWalk prev bts).2.1,
           pb + (specWalk prev bts).2.2, sub2) := by
  induction bts generalizing pts prev nb net pb sub with
  | nil =>
      have hz : pts = [] := List.length_eq_zero.mp (by simpa using hlen)
      subst hz
      exact ⟨sub, by simp [statsLoop, specWalk]⟩
  | cons bt rest ih =>
      obtain ⟨b, t⟩ := bt
      cases pts with
      | nil => simp at hlen
      | cons d ds =>
          have hd := hshape (d, (b, t)) (by simp)
          simp only [ptShapeB, Bool.and_eq_true, decide_eq_true_eq] at hd
          obtain ⟨⟨⟨hpb, hti⟩, hnt⟩, hts⟩ := hd
          obtain ⟨nt, hnt2⟩ := isStrVal_exists _ hnt
          have eti : dgetRat d "t_incr" = .ok t := by unfold dgetRat; rw [hti]
          have ent : dgetStr d "node_type" = .ok nt := by unfold dgetStr; rw [hnt2]
          unfold statsLoop
          simp only [bind, Except.bind]
          rw [hpb]
          dsimp only
          rw [eti]
          dsimp only
          rw [ent]
          dsimp only
          have hlen2 : ds.length = rest.length := by simpa using hlen
          have hsh2 : ∀ pr ∈ ds.zip rest, ptShapeB pr.1 pr.2 = true := by
            intro pr hpr
            exact hshape pr (by simp [hpr])
          by_cases hbp : b = prev
          · subst hbp
            rw [if_pos rfl]
            obtain ⟨sub2, heq⟩ := ih ds hlen2 hsh2 b nb net (pb + t) (sub ++ [nt])
            refine ⟨sub2, heq.trans ?_⟩
            simp [specWalk, add_comm, add_assoc, add_left_comm]
          · have hne2 : (PVal.str b) ≠ (PVal.str prev) := by
              intro hc
              exact hbp (by injection hc)
            rw [if_neg hne2]
            obtain ⟨sub2, heq⟩ := ih ds hlen2 hsh2 b (nb + 1) (net + t) pb (sub ++ [nt])
            refine ⟨sub2, heq.trans ?_⟩
            simp [specWalk, hbp, add_comm, add_assoc, add_left_comm]

/-- The reference walk of a constant-id sequence has no transitions and
no net time. -/
theorem specWalk_const (prev : String) :
    ∀ bts : List (String × ℚ), (∀ bt ∈ bts, bt.1 = prev) →
      (specWalk prev bts).1 = 0 ∧ (specWalk prev bts).2.1 = 0
  | [], _ => by simp [specWalk]
  | (b, t) :: rest, h => by
      have hb : b = prev := h (b, t) (by simp)
      subst hb
      have hr := specWalk_const b rest (fun bt hm => h bt (by simp [hm]))
      simp only [specWalk, if_pos rfl]
      exact hr

/-- Last element of a zip of two equally long lists. -/
theorem last_zip_mem {α β : Type} :
    ∀ (xs : List α) (ys : List β) (x : α) (y : β), xs.length = ys.length →
      (xs.getLastD x, ys.getLastD y) ∈ (x :: xs).zip (y :: ys)
  | [], [], x, y, _ => by simp
  | [], b :: ys, x, y, h => by simp at h
  | a :: xs, [], x, y, h => by simp at h
  | a :: xs, b :: ys, x, y, h => by
      have hm := last_zip_mem xs ys a b (by simpa using h)
      rw [List.getLastD_cons, List.getLastD_cons, List.zip_cons_cons]
      exact List.mem_cons_of_mem _ hm

/-- Relation between the two last-element accessors. -/
theorem getLastI_cons_getLastD {α : Type} [Inhabited α] (l : List α) (a : α) :
    (a :: l).getLastI = l.getLastD a := by
  rw [List.getLastI_eq_getLast?, getLast?_cons_getLastD]

/-- Claim C5: the timing decomposition of `get_statistics` walks the
points pairwise, sending each increment to block time when the
physical-block id repeats and to net time (counting a transition) when
it changes; the transition counter is decremented by one at the end
when it is at least one; and a path whose points all carry the same
physical-block id yields an inter-block count of 0 and a net time of
0. -/
theorem C5_timing_decomposition (pts : List Dict) (bts : List (String × ℚ))
    (hlen : pts.length = bts.length) (hne : bts ≠ [])
    (hshape : ∀ pr ∈ pts.zip bts, ptShapeB pr.1 pr.2 = true) :
    ∃ s, get_statistics pts = .ok s ∧
      s.nb_pbs = (specWalk bts.headI.1 bts.tail).1 -
        (if 1 ≤ (specWalk bts.headI.1 bts.tail).1 then 1 else 0) ∧
      s.net_time = (specWalk bts.headI.1 bts.tail).2.1 ∧
      s.pb_time = (specWalk bts.headI.1 bts.tail).2.2 ∧
      ((∀ bt ∈ bts, bt.1 = bts.headI.1) → s.nb_pbs = 0 ∧ s.net_time = 0) := by
  cases bts with
  | nil => exact absurd rfl hne
  | cons bt0 btsRest =>
  obtain ⟨b0, t0⟩ := bt0
  cases pts with
  | nil => simp at hlen
  | cons d ds =>
  have hd := hshape (d, (b0, t0)) (by simp)
  simp only [ptShapeB, Bool.and_eq_true, decide_eq_true_eq] at hd
  obtain ⟨⟨⟨hpb, hti⟩, hnt⟩, hts⟩ := hd
  have hlen2 : ds.length = btsRest.length := by simpa using hlen
  have hlast := hshape (ds.getLastD d, btsRest.getLastD (b0, t0))
    (last_zip_mem ds btsRest d (b0, t0) hlen2)
  simp only [ptShapeB, Bool.and_eq_true, decide_eq_true_eq] at hlast
  obtain ⟨-, htsl⟩ := hlast
  obtain ⟨tsl, htsl2⟩ := isRatVal_exists _ htsl
  obtain ⟨tsf, htsf2⟩ := isRatVal_exists _ hts
  have etsl : dgetRat ((d :: ds).getLastI) "t_sum" = .ok tsl := by
    rw [getLastI_cons_getLastD ds d]
    unfold dgetRat
    rw [htsl2]
  have etsf : dgetRat d "t_sum" = .ok tsf := by unfold dgetRat; rw [htsf2]
  have hsh2 : ∀ pr ∈ ds.zip btsRest, ptShapeB pr.1 pr.2 = true := by
    intro pr hpr
    exact hshape pr (by simp [hpr])
  obtain ⟨sub2, hloop⟩ := statsLoop_spec btsRest ds hlen2 hsh2 b0 0 0 0 []
  unfold get_statistics
  simp only [bind, Except.bind]
  rw [etsl]
  dsimp only
  rw [etsf]
  dsimp only
  rw [hpb]
  dsimp only
  rw [hloop]
  dsimp only
  refine ⟨_, rfl, ?_, ?_, ?_, ?_⟩
  · simp [List.headI, List.tail]
  · simp [List.headI, List.tail]
  · simp [List.headI, List.tail]
  · intro hconst
    have hc := specWalk_const b0 btsRest
      (fun bt hm => hconst bt (by simp [hm]))
    simp only [List.headI, List.tail]
    constructor
    · simp only [hc.1]
      norm_num
    · simp only [hc.2]
      norm_num

/-- Two annotated points on the same physical block. -/
def sameBlockPts : List Dict :=
  [[("point", .str "sigA.out[0]"), ("node_type", .str ".names"),
    ("t_incr", .rat 1), ("t_sum", .rat 1), ("pb_id", .str "0"),
    ("x", .int 0), ("y", .int 0), ("pb_coords", .str "( 0, 0)")],
   [("point", .str "sigA2.out[0]"), ("node_type", .str ".names"),
    ("t_incr", .rat 2), ("t_sum", .rat 3), ("pb_id", .str "0"),
    ("x", .int 0), ("y", .int 0), ("pb_coords", .str "( 0, 0)")]]

/-- The abstract (id, increment) pairs of `sameBlockPts`. -/
def sameBlockBts : List (String × ℚ) := [("0", 1), ("0", 2)]

/-- Witness for C5 on a concrete one-transition same-block path. -/
theorem C5_timing_decomposition_witness :
    ∃ s, get_statistics sameBlockPts = .ok s ∧
      s.nb_pbs = (specWalk sameBlockBts.headI.1 sameBlockBts.tail).1 -
        (if 1 ≤ (specWalk sameBlockBts.headI.1 sameBlockBts.tail).1 then 1 else 0) ∧
      s.net_time = (specWalk sameBlockBts.headI.1 sameBlockBts.tail).2.1 ∧
      s.pb_time = (specWalk sameBlockBts.headI.1 sameBlockBts.tail).2.2 ∧
      ((∀ bt ∈ sameBlockBts, bt.1 = sameBlockBts.headI.1) →
        s.nb_pbs = 0 ∧ s.net_time = 0) :=
  C5_timing_decomposition sameBlockPts sameBlockBts (by decide) (by decide)
    (by decide)

/- ====================================================================
   Claim C7
   ==================================================================== -/

/-- Test that a block scan step neither resolves the object name nor
raises: the block params table does not know the object name (in any of
the value shapes the scan inspects). -/
def paramsKeyAbsentB (blk : BlifBlock) (output : String) : Bool :=
  match aget blk "params" with
  | some (.params ps) => (aget ps output).isNone
  | some (.str s) => ! containsSub s output
  | some (.strs l) => decide (output ∉ l)
  | some (.pinMap ps) => (aget ps output).isNone
  | some .pynone => false
  | none => false

/-- Test that a model resolves nothing for an object name: the name is
not a logic-function output, not a latch output, and no sub-circuit
parameter table knows it (a `None` model entry fails the test, since
scanning it raises). -/
def unresolvableB (om : Option BlifModel) (output : String) : Bool :=
  match om with
  | none => false
  | some m =>
      (aget m.names output).isNone && (aget m.latches output).isNone &&
      m.subckts.all (fun blk => paramsKeyAbsentB blk output)

/-- A sub-circuit scan over blocks that all fail the key test returns
not-found. -/
theorem get_pin_subckt_go_none (output pinName : String)
    (blocks : List BlifBlock)
    (h : blocks.all (fun blk => paramsKeyAbsentB blk output) = true) :
    BlifModel.get_pin_subckt_go output pinName blocks = .ok none := by
  induction blocks with
  | nil => rfl
  | cons blk rest ih =>
      simp only [List.all_cons, Bool.and_eq_true] at h
      obtain ⟨hb, hrest⟩ := h
      unfold BlifModel.get_pin_subckt_go
      unfold paramsKeyAbsentB at hb
      cases hp : aget blk "params" with
      | none => rw [hp] at hb; simp at hb
      | some v =>
          rw [hp] at hb
          cases v with
          | params ps =>
              simp only [Option.isNone_iff_eq_none] at hb
              dsimp only
              rw [hb]
              simp only [Option.isSome_none, Bool.false_eq_true, if_false]
              exact ih hrest
          | str s =>
              have hb2 : containsSub s output = false := by simpa using hb
              dsimp only
              rw [hb2]
              simp only [Bool.false_eq_true, if_false]
              exact ih hrest
          | strs l =>
              simp only [decide_eq_true_eq] at hb
              dsimp only
              rw [if_neg hb]
              exact ih hrest
          | pinMap ps =>
              simp only [Option.isNone_iff_eq_none] at hb
              dsimp only
              rw [hb]
              simp only [Option.isSome_none, Bool.false_eq_true, if_false]
              exact ih hrest
          | pynone => simp at hb

/-- An instance scan over blocks that all fail the key test returns
not-found. -/
theorem get_instance_go_none (output pinName : String)
    (blocks : List BlifBlock)
    (h : blocks.all (fun blk => paramsKeyAbsentB blk output) = true) :
    BlifModel.get_instance_go output pinName blocks = .ok none := by
  induction blocks with
  | nil => rfl
  | cons blk rest ih =>
      simp only [List.all_cons, Bool.and_eq_true] at h
      obtain ⟨hb, hrest⟩ := h
      unfold BlifModel.get_instance_go
      cases hi : aget blk "inst" with
      | none =>
          exact ih hrest
      | some instVal =>
          unfold paramsKeyAbsentB at hb
          cases hp : aget blk "params" with
          | none => rw [hp] at hb; simp at hb
          | some v =>
              rw [hp] at hb
              cases v with
              | params ps =>
                  simp only [Option.isNone_iff_eq_none] at hb
                  dsimp only
                  rw [hb]
                  simp only [Option.isSome_none, Bool.false_eq_true, if_false]
                  exact ih hrest
              | str s =>
                  have hb2 : containsSub s output = false := by simpa using hb
                  dsimp only
                  rw [hb2]
                  simp only [Bool.false_eq_true, if_false]
                  exact ih hrest
              | strs l =>
                  simp only [decide_eq_true_eq] at hb
                  dsimp only
                  rw [if_neg hb]
                  exact ih hrest
              | pinMap ps =>
                  simp only [Option.isNone_iff_eq_none] at hb
                  dsimp only
                  rw [hb]
                  simp only [Option.isSome_none, Bool.false_eq_true, if_false]
                  exact ih hrest
              | pynone => simp at hb

/-- A model that resolves nothing returns not-found from every `get_pin`
dispatch and from `get_instance`. -/
theorem model_get_pin_none (m : BlifModel) (pointName : String)
    (h : unresolvableB (some m) (split_point pointName).1 = true) :
    (∀ et, m.get_pin pointName et = .ok none) ∧
    m.get_instance pointName = .ok none := by
  unfold unresolvableB at h
  simp only [Bool.and_eq_true] at h
  obtain ⟨⟨hn, hl⟩, hsub⟩ := h
  simp only [Option.isNone_iff_eq_none] at hn hl
  have hnames : m.get_pin_names pointName = .ok none := by
    unfold BlifModel.get_pin_names
    cases hsp : split_point pointName with
    | mk output pinName2 =>
        rw [hsp] at hn
        dsimp only at hn ⊢
        rw [hn]
  have hlatch : m.get_pin_latch pointName = .ok none := by
    unfold BlifModel.get_pin_latch
    cases hsp : split_point pointName with
    | mk output pinName2 =>
        rw [hsp] at hl
        dsimp only at hl ⊢
        rw [hl]
  have hsubckt : m.get_pin_subckt pointName = .ok none := by
    unfold BlifModel.get_pin_subckt
    exact get_pin_subckt_go_none _ _ _ hsub
  have hinst : m.get_instance pointName = .ok none := by
    unfold BlifModel.get_instance
    exact get_instance_go_none _ _ _ hsub
  refine ⟨?_, hinst⟩
  intro et
  unfold BlifModel.get_pin
  match et with
  | some "names" => exact hnames
  | some "latch" => exact hlatch
  | some "subckt" => exact hsubckt
  | none =>
      simp only [bind, Except.bind]
      rw [hnames]
      dsimp only
      rw [hlatch]
      dsimp only
      rw [hsubckt]
  | some other =>
      simp only [bind, Except.bind]
      split
      · exact hnames
      · exact hlatch
      · exact hsubckt
      · rw [hnames]
        dsimp only
        rw [hlatch]
        dsimp only
        rw [hsubckt]

/-- Claim C7 (amended): for a point name that resolves to no object in
any model, parser-level `get_pin` and `get_instance` return the
not-found value (`None`); `PathBuilder._get_instance_name` treats a
not-found instance name for sub-circuit node types as "no mapping
available", falling back to the node-type tag, but for dotted internal
node types (logic-function, latch) a not-found pin resolution raises an
unhandled `TypeError` (`"$techmap" in None`) instead of being treated
as a missing mapping. -/
theorem C7_not_found_handling (models : List (Option BlifModel)) (d : Dict)
    (pname pbType : String)
    (hpt : dget d "point" = some (.str pname))
    (hnt : dget d "node_type" = some (.str pbType)) :
    (models.all (fun om => unresolvableB om (split_point pname).1) = true →
       (∀ et, BlifParser.get_pin models pname et = .ok none) ∧
       BlifParser.get_instance models pname = .ok none) ∧
    (pbType.startsWith "." = false →
       BlifParser.get_instance models pname = .ok none →
       get_instance_name (some models) d = .ok (cleanName pbType)) ∧
    (pbType.startsWith "." = true → pbType ≠ ".output" → pbType ≠ ".input" →
       BlifParser.get_pin models pname (some (pbType.drop 1)) = .ok none →
       get_instance_name (some models) d =
         .error (.typeError "argument of type NoneType is not iterable")) := by
  have ent : dgetStr d "node_type" = .ok pbType := by unfold dgetStr; rw [hnt]
  have ept : dgetStr d "point" = .ok pname := by unfold dgetStr; rw [hpt]
  refine ⟨?_, ?_, ?_⟩
  · intro hall
    induction models with
    | nil => exact ⟨fun et => rfl, rfl⟩
    | cons om rest ih =>
        simp only [List.all_cons, Bool.and_eq_true] at hall
        obtain ⟨hom, hrest⟩ := hall
        cases om with
        | none => simp [unresolvableB] at hom
        | some m =>
            obtain ⟨hpin, hinst⟩ := model_get_pin_none m pname hom
            obtain ⟨ihpin, ihinst⟩ := ih hrest
            constructor
            · intro et
              unfold BlifParser.get_pin
              simp only [bind, Except.bind]
              rw [hpin et]
              dsimp only
              exact ihpin et
            · unfold BlifParser.get_instance
              simp only [bind, Except.bind]
              rw [hinst]
              dsimp only
              exact ihinst
  · intro hdot hinst
    unfold get_instance_name
    simp only [bind, Except.bind]
    rw [ent]
    dsimp only
    rw [ept]
    dsimp only
    rw [hdot]
    rw [hinst]
    rfl
  · intro hdot hout hin hpin
    unfold get_instance_name
    simp only [bind, Except.bind]
    rw [ent]
    dsimp only
    rw [ept]
    dsimp only
    rw [hdot]
    rw [if_neg hout, if_neg hin]
    simp only [bind, Except.bind]
    rw [hpin]
    rfl

/-- The models parsed from the scenario netlist text. -/
def modelsC7 : List (Option BlifModel) := exOk (blifParseText c6Text)

/-- A point dict with a logic-function node type whose name resolves
nowhere. -/
def dC7names : Dict :=
  [("point", .str "zz.in[0]"), ("node_type", .str ".names"),
   ("t_incr", .rat 1), ("t_sum", .rat 1)]

/-- A point dict with a sub-circuit node type whose name resolves
nowhere. -/
def dC7sub : Dict :=
  [("point", .str "zz.in[0]"), ("node_type", .str "bram"),
   ("t_incr", .rat 1), ("t_sum", .rat 1)]

/-- Witness for C7 (amended), applying the theorem at the parsed
scenario netlist: the unresolvable point yields not-found from both
resolutions, the sub-circuit-type point falls back to its node type,
and the logic-function-type point raises the `TypeError`. -/
theorem C7_not_found_handling_witness :
    ((∀ et, BlifParser.get_pin modelsC7 "zz.in[0]" et = .ok none) ∧
     BlifParser.get_instance modelsC7 "zz.in[0]" = .ok none) ∧
    get_instance_name (some modelsC7) dC7sub = .ok (cleanName "bram") ∧
    get_instance_name (some modelsC7) dC7names =
      .error (.typeError "argument of type NoneType is not iterable") :=
  ⟨(C7_not_found_handling modelsC7 dC7names "zz.in[0]" ".names"
      (by with_unfolding_all rfl) (by with_unfolding_all rfl)).1
      (by with_unfolding_all rfl),
   (C7_not_found_handling modelsC7 dC7sub "zz.in[0]" "bram"
      (by with_unfolding_all rfl) (by with_unfolding_all rfl)).2.1
      (by with_unfolding_all rfl) (by with_unfolding_all rfl),
   (C7_not_found_handling modelsC7 dC7names "zz.in[0]" ".names"
      (by with_unfolding_all rfl) (by with_unfolding_all rfl)).2.2
      (by with_unfolding_all rfl) (by decide) (by decide)
      (by with_unfolding_all rfl)⟩

/-- Counterexample for C7 as stated: on the parsed scenario netlist the
point `zz.in[0]` resolves to no object, `get_pin` duly returns the
not-found value, and the core caller `_get_instance_name` — resolving a
logic-function-type point — raises a `TypeError` instead of treating the
not-found result as "no mapping available". -/
theorem C7_counterexample :
    BlifParser.get_pin modelsC7 "zz.in[0]" (some "names") = .ok none ∧
    get_instance_name (some modelsC7) dC7names =
      .error (.typeError "argument of type NoneType is not iterable") := by
  refine ⟨by with_unfolding_all rfl, by with_unfolding_all rfl⟩

/- ====================================================================
   Claim C1
   ==================================================================== -/

/-- The cumulative `t_sum` column is non-decreasing across consecutive
point dicts of a path. -/
def nondecreasingTSum : List Dict → Bool
  | [] => true
  | [_] => true
  | d1 :: d2 :: rest =>
      (match dget d1 "t_sum", dget d2 "t_sum" with
       | some (.rat a), some (.rat b) => decide (a ≤ b)
       | _, _ => false)
      && nondecreasingTSum (d2 :: rest)

/-- The structural part of claim C1: the path has at least two points,
its first point line names the declared startpoint and its last names
the declared endpoint. -/
def pathAmendedOkB (p : PyPath) : Bool :=
  decide (2 ≤ p.points.length)
  && (match p.points.head?, p.startpoint with
      | some d, some sp => decide (dget d "point" = some (.str sp))
      | _, _ => false)
  && (match p.points.getLast?, p.endpoint with
      | some d, some ep => decide (dget d "point" = some (.str ep))
      | _, _ => false)

/-- Claim C1 as stated, of one parsed path: the structural part plus
non-decreasing cumulative delay. -/
def pathClaimB (p : PyPath) : Bool :=
  pathAmendedOkB p && nondecreasingTSum p.points

/-- A report the regex battery accepts on which both conjuncts of claim
C1 fail.  Block 1 declares endpoint `b` but its only point line is the
startpoint carrying a clock-edge tag, so the end token never matches and
the finished path keeps a single point (and the body token stays set
into the next block).  Block 2 is structurally complete but its `t_sum`
column decreases from 5 to 3 — the defensive clamp rewrites only
`t_incr`, never `t_sum`. -/
def cx1 : List RptLine :=
  [.pathId 1, .startpoint "a", .endpoint "b",
   .point ⟨"a", ".ff", none, some "rise", 1, 1⟩,
   .arrival 1, .slack "setup" 9,
   .pathId 2, .startpoint "a", .endpoint "b",
   .point ⟨"a", ".ff", none, none, 5, 5⟩,
   .point ⟨"b", ".ff", none, none, 0, 3⟩,
   .arrival 3, .slack "setup" 7]

/-- Counterexample for C1 as stated: `parse` succeeds on `cx1` and both
produced paths falsify the claimed invariant — the first has a single
point (so fewer than 2, and its last point is not the endpoint), the
second has a strictly decreasing `t_sum`. -/
theorem C1_counterexample :
    (parseTiming none cx1).map (fun rpt => rpt.paths.map pathClaimB)
      = .ok [false, false] := by
  with_unfolding_all rfl

/-- Line kinds allowed before the first path block: unit-scale and
precision headers and unrecognized text. -/
def preludeOk : RptLine → Bool
  | .scale _ => true
  | .precision _ => true
  | .other => true
  | _ => false

/-- Lines allowed between the first and last point line of a block:
further point lines not matching the end token, net lines, and
unrecognized text. -/
def midOk (ep : String) : RptLine → Bool
  | .point pl => decide (¬(pl.point = ep ∧ pl.edgeClock = none))
  | .net _ _ _ => true
  | .other => true
  | _ => false

/-- One path block of a report: the `#Path`, `Startpoint:` and
`Endpoint:` headers, the startpoint point line, middle lines, the
endpoint point line and the closing `slack` line. -/
structure WFBlock where
  pid : ℤ
  sp : String
  ep : String
  firstPt : PathPointLine
  mids : List RptLine
  lastPt : PathPointLine
  slackVal : ℚ
deriving DecidableEq, Repr

/-- Well-formedness of a block: the first point line names the declared
startpoint, the last point line names the declared endpoint with no
clock-edge tag, the two names differ, and the middle lines do not match
the end token. -/
def WFBlockOk (b : WFBlock) : Bool :=
  decide (b.firstPt.point = b.sp) && decide (b.lastPt.point = b.ep)
  && decide (b.lastPt.edgeClock = none) && decide (b.sp ≠ b.ep)
  && b.mids.all (midOk b.ep)

/-- The report lines of one block. -/
def blockLines (b : WFBlock) : List RptLine :=
  [.pathId b.pid, .startpoint b.sp, .endpoint b.ep, .point b.firstPt]
  ++ b.mids
  ++ [.point b.lastPt, .slack "setup" b.slackVal]

/-- The report lines of a list of blocks. -/
def blocksLines : List WFBlock → List RptLine
  | [] => []
  | b :: rest => blockLines b ++ blocksLines rest

/-- Composition of the line loop: a breakless run of a prefix continues
into the suffix. -/
theorem runLines_append (nb0 : Option ℤ) (xs : List RptLine)
    (st st' : TState) (h : runLines nb0 st xs = .ok (st', false))
    (ys : List RptLine) :
    runLines nb0 st (xs ++ ys) = runLines nb0 st' ys := by
  induction xs generalizing st with
  | nil =>
      unfold runLines at h
      simp only [Except.ok.injEq, Prod.mk.injEq] at h
      rw [h.1.symm]
      rfl
  | cons l ls ih =>
      rw [List.cons_append]
      unfold runLines at h
      simp only [bind, Except.bind] at h
      conv_lhs => unfold runLines
      simp only [bind, Except.bind]
      cases hs : step nb0 st l with
      | error e => rw [hs] at h; exact absurd h (by simp)
      | ok sb =>
          obtain ⟨st1, brk⟩ := sb
          rw [hs] at h
          dsimp only at h ⊢
          cases brk with
          | true => simp at h
          | false =>
              simp only [Bool.false_eq_true, if_false] at h ⊢
              exact ih st1 h

/-- Running header lines from a state with no startpoint yet declared
touches only the file-information fields. -/
theorem runPrelude (ls : List RptLine) (h : ls.all preludeOk = true)
    (st : TState) (hsp : st.path.startpoint = none) :
    ∃ us up, runLines none st ls =
      .ok ({ st with unitScale := us, unitPrecision := up }, false) := by
  induction ls generalizing st with
  | nil => exact ⟨st.unitScale, st.unitPrecision, rfl⟩
  | cons l ls2 ih =>
      simp only [List.all_cons, Bool.and_eq_true] at h
      obtain ⟨hl, hrest⟩ := h
      cases l with
      | scale v =>
          have hstep : step none st (.scale v) =
              .ok ({ st with unitScale := some v }, false) := by
            unfold step
            dsimp only [applyFileInfo, applyPathDesc]
            rw [if_pos (Or.inl hsp)]
          obtain ⟨us, up, heq⟩ := ih hrest { st with unitScale := some v } hsp
          refine ⟨us, up, ?_⟩
          unfold runLines
          simp only [bind, Except.bind]
          rw [hstep]
          dsimp only
          exact heq
      | precision p =>
          have hstep : step none st (.precision p) =
              .ok ({ st with unitPrecision := some p }, false) := by
            unfold step
            dsimp only [applyFileInfo, applyPathDesc]
            rw [if_pos (Or.inl hsp)]
          obtain ⟨us, up, heq⟩ := ih hrest { st with unitPrecision := some p } hsp
          refine ⟨us, up, ?_⟩
          unfold runLines
          simp only [bind, Except.bind]
          rw [hstep]
          dsimp only
          exact heq
      | other =>
          have hstep : step none st .other = .ok (st, false) := by
            unfold step
            dsimp only [applyFileInfo, applyPathDesc]
            rw [if_pos (Or.inl hsp)]
          obtain ⟨us, up, heq⟩ := ih hrest st hsp
          refine ⟨us, up, ?_⟩
          unfold runLines
          simp only [bind, Except.bind]
          rw [hstep]
          dsimp only
          exact heq
      | pathId i => exact absurd hl (by simp [preludeOk])
      | startpoint s => exact absurd hl (by simp [preludeOk])
      | endpoint e => exact absurd hl (by simp [preludeOk])
      | pathType t => exact absurd hl (by simp [preludeOk])
      | point pl => exact absurd hl (by simp [preludeOk])
      | net n ti ts => exact absurd hl (by simp [preludeOk])
      | arrival t => exact absurd hl (by simp [preludeOk])
      | required t => exact absurd hl (by simp [preludeOk])
      | slack c t => exact absurd hl (by simp [preludeOk])

/-- Running middle lines from a body state (token set, both endpoints
declared) only appends collected points and moves the net-delay
carry. -/
theorem runMids (sp ep : String) (mids : List RptLine)
    (h : mids.all (midOk ep) = true) (st : TState)
    (hsp : st.path.startpoint = some sp) (hep : st.path.endpoint = some ep)
    (htk : st.token = true) :
    ∃ (tI : ℚ) (extra : List Dict),
      runLines none st mids =
        .ok ({ st with
                 path := { st.path with points := st.path.points ++ extra },
                 tIncr := tI }, false) := by
  induction mids generalizing st with
  | nil =>
      refine ⟨st.tIncr, [], ?_⟩
      rw [List.append_nil]
      rfl
  | cons l ls ih =>
      simp only [List.all_cons, Bool.and_eq_true] at h
      obtain ⟨hl, hrest⟩ := h
      cases l with
      | point pl =>
          have hmid : ¬(pl.point = ep ∧ pl.edgeClock = none) := by
            simp only [midOk, decide_eq_true_eq] at hl
            exact hl
          have hstep : step none st (.point pl) =
              .ok ({ st with
                       path := { st.path with
                           points := st.path.points ++
                             [mkPointDict pl st.tIncr (st.unitPrecision.getD 3)] },
                       tIncr := 0 }, false) := by
            unfold step
            dsimp only [applyFileInfo, applyPathDesc, matchesStartToken,
              matchesEndToken]
            rw [hsp, hep]
            dsimp only [Option.getD]
            rw [if_neg (by simp)]
            have hc1 : ¬(decide (pl.point = sp) = true ∧ ¬st.token = true) :=
              fun hc => hc.2 htk
            simp only [if_neg hc1]
            simp only [if_pos htk]
            have hc2 : ¬(decide (pl.point = ep ∧ pl.edgeClock = none) = true ∧
                st.token = true) :=
              fun hc => hmid (of_decide_eq_true hc.1)
            simp only [if_neg hc2]
            rw [hsp, hep]
          obtain ⟨tI, extra, heq⟩ := ih hrest
            { st with
                path := { st.path with
                    points := st.path.points ++
                      [mkPointDict pl st.tIncr (st.unitPrecision.getD 3)] },
                tIncr := 0 } hsp hep htk
          refine ⟨tI, mkPointDict pl st.tIncr (st.unitPrecision.getD 3) :: extra, ?_⟩
          unfold runLines
          simp only [bind, Except.bind]
          rw [hstep]
          dsimp only
          rw [heq]
          simp [List.append_assoc]
      | net n ti ts =>
          have hstep : step none st (.net n ti ts) =
              .ok ({ st with tIncr := st.tIncr + ti }, false) := by
            unfold step
            dsimp only [applyFileInfo, applyPathDesc, matchesStartToken,
              matchesEndToken]
            rw [hsp, hep]
            rw [if_neg (by simp)]
            have hc1 : ¬((false : Bool) = true ∧ ¬st.token = true) := by simp
            simp only [if_neg hc1]
            have hc2 : ¬((false : Bool) = true ∧ st.token = true) := by simp
            simp only [if_neg hc2]
          obtain ⟨tI, extra, heq⟩ := ih hrest
            { st with tIncr := st.tIncr + ti } hsp hep htk
          refine ⟨tI, extra, ?_⟩
          unfold runLines
          simp only [bind, Except.bind]
          rw [hstep]
          dsimp only
          rw [heq]
          rfl
      | other =>
          have hstep : step none st .other = .ok (st, false) := by
            unfold step
            dsimp only [applyFileInfo, applyPathDesc, matchesStartToken,
              matchesEndToken]
            rw [hsp, hep]
            rw [if_neg (by simp)]
            have hc1 : ¬((false : Bool) = true ∧ ¬st.token = true) := by simp
            simp only [if_neg hc1]
            have hc2 : ¬((false : Bool) = true ∧ st.token = true) := by simp
            simp only [if_neg hc2]
          obtain ⟨tI, extra, heq⟩ := ih hrest st hsp hep htk
          refine ⟨tI, extra, ?_⟩
          unfold runLines
          simp only [bind, Except.bind]
          rw [hstep]
          dsimp only
          rw [heq]
          rfl
      | pathId i => exact absurd hl (by simp [midOk])
      | startpoint s => exact absurd hl (by simp [midOk])
      | endpoint e => exact absurd hl (by simp [midOk])
      | pathType t => exact absurd hl (by simp [midOk])
      | arrival t => exact absurd hl (by simp [midOk])
      | required t => exact absurd hl (by simp [midOk])
      | slack c t => exact absurd hl (by simp [midOk])
      | scale v => exact absurd hl (by simp [midOk])
      | precision p => exact absurd hl (by simp [midOk])

/-- The first entry of a point dict is the point name. -/
theorem dget_mkPointDict_point (pl : PathPointLine) (carry : ℚ) (prec : ℕ) :
    dget (mkPointDict pl carry prec) "point" = some (.str pl.point) := rfl

/-- One breakless iteration folded into the line loop. -/
theorem runLines_cons_ok (nb0 : Option ℤ) (st st1 : TState) (l : RptLine)
    (ls : List RptLine) (h : step nb0 st l = .ok (st1, false)) :
    runLines nb0 st (l :: ls) = runLines nb0 st1 ls := by
  conv_lhs => unfold runLines
  simp only [bind, Except.bind]
  rw [h]
  dsimp only
  simp only [Bool.false_eq_true, if_false]

/-- Running one well-formed block from a clean loop state appends
exactly one finished path, satisfying the amended structural property,
and returns to a clean state. -/
theorem runBlock (b : WFBlock) (hb : WFBlockOk b = true) (st : TState)
    (hpath : st.path = freshPath) (htk : st.token = false) :
    ∃ st' newPath,
      runLines none st (blockLines b) = .ok (st', false) ∧
      st'.path = freshPath ∧ st'.token = false ∧
      st'.paths = st.paths ++ [newPath] ∧
      pathAmendedOkB newPath = true := by
  simp only [WFBlockOk, Bool.and_eq_true, decide_eq_true_eq] at hb
  obtain ⟨⟨⟨⟨hfst, hlep⟩, hlec⟩, hne⟩, hmids⟩ := hb
  have hnt : ¬ st.token = true := by rw [htk]; simp
  have htt : (true : Bool) = true := rfl
  have h1 : step none st (.pathId b.pid) = .ok ({ st with path := { id := some b.pid, startpoint := none, endpoint := none, ptype := none, arrivalTime := none, requiredTime := none, slackTime := none, points := [] } }, false) := by
    unfold step
    dsimp only [applyFileInfo, applyPathDesc]
    rw [hpath]
    rfl
  have h2 : step none ({ st with path := { id := some b.pid, startpoint := none, endpoint := none, ptype := none, arrivalTime := none, requiredTime := none, slackTime := none, points := [] } }) (.startpoint b.sp) = .ok ({ st with path := { id := some b.pid, startpoint := some b.sp, endpoint := none, ptype := none, arrivalTime := none, requiredTime := none, slackTime := none, points := [] } }, false) := by
    unfold step
    rfl
  have h3 : step none ({ st with path := { id := some b.pid, startpoint := some b.sp, endpoint := none, ptype := none, arrivalTime := none, requiredTime := none, slackTime := none, points := [] } }) (.endpoint b.ep) = .ok ({ st with path := { id := some b.pid, startpoint := some b.sp, endpoint := some b.ep, ptype := none, arrivalTime := none, requiredTime := none, slackTime := none, points := [] } }, false) := by
    unfold step
    rfl
  have h4 : step none ({ st with path := { id := some b.pid, startpoint := some b.sp, endpoint := some b.ep, ptype := none, arrivalTime := none, requiredTime := none, slackTime := none, points := [] } }) (.point b.firstPt) = .ok ({ st with path := { id := some b.pid, startpoint := some b.sp, endpoint := some b.ep, ptype := none, arrivalTime := none, requiredTime := none, slackTime := none, points := [mkPointDict b.firstPt st.tIncr (st.unitPrecision.getD 3)] }, token := true, tIncr := 0 }, false) := by
    unfold step
    dsimp only [applyFileInfo, applyPathDesc, matchesStartToken,
      matchesEndToken, Option.getD]
    rw [if_neg (by simp)]
    have hcs : decide (b.firstPt.point = b.sp) = true ∧ ¬ st.token = true :=
      ⟨decide_eq_true hfst, hnt⟩
    simp only [if_pos hcs]
    have hd : decide (b.firstPt.point = b.ep ∧ b.firstPt.edgeClock = none)
        = false :=
      decide_eq_false (fun hc => hne (hfst.symm.trans hc.1))
    simp only [hd, eq_self_iff_true, if_true, Bool.false_eq_true, false_and,
      if_false]
    rfl
  have hhead : runLines none st [.pathId b.pid, .startpoint b.sp, .endpoint b.ep, .point b.firstPt] = .ok ({ st with path := { id := some b.pid, startpoint := some b.sp, endpoint := some b.ep, ptype := none, arrivalTime := none, requiredTime := none, slackTime := none, points := [mkPointDict b.firstPt st.tIncr (st.unitPrecision.getD 3)] }, token := true, tIncr := 0 }, false) := by
    rw [runLines_cons_ok none _ _ _ _ h1, runLines_cons_ok none _ _ _ _ h2,
        runLines_cons_ok none _ _ _ _ h3, runLines_cons_ok none _ _ _ _ h4]
    rfl
  obtain ⟨tI, extra, heq⟩ := runMids b.sp b.ep b.mids hmids ({ st with path := { id := some b.pid, startpoint := some b.sp, endpoint := some b.ep, ptype := none, arrivalTime := none, requiredTime := none, slackTime := none, points := [mkPointDict b.firstPt st.tIncr (st.unitPrecision.getD 3)] }, token := true, tIncr := 0 }) rfl rfl rfl
  have h5 : step none ({ ({ st with path := { id := some b.pid, startpoint := some b.sp, endpoint := some b.ep, ptype := none, arrivalTime := none, requiredTime := none, slackTime := none, points := [mkPointDict b.firstPt st.tIncr (st.unitPrecision.getD 3)] }, token := true, tIncr := 0 }) with path := { ({ st with path := { id := some b.pid, startpoint := some b.sp, endpoint := some b.ep, ptype := none, arrivalTime := none, requiredTime := none, slackTime := none, points := [mkPointDict b.firstPt st.tIncr (st.unitPrecision.getD 3)] }, token := true, tIncr := 0 }).path with points := ({ st with path := { id := some b.pid, startpoint := some b.sp, endpoint := some b.ep, ptype := none, arrivalTime := none, requiredTime := none, slackTime := none, points := [mkPointDict b.firstPt st.tIncr (st.unitPrecision.getD 3)] }, token := true, tIncr := 0 }).path.points ++ extra }, tIncr := tI }) (.point b.lastPt) = .ok ({ ({ st with path := { id := some b.pid, startpoint := some b.sp, endpoint := some b.ep, ptype := none, arrivalTime := none, requiredTime := none, slackTime := none, points := [mkPointDict b.firstPt st.tIncr (st.unitPrecision.getD 3)] }, token := true, tIncr := 0 }) with path := { ({ st with path := { id := some b.pid, startpoint := some b.sp, endpoint := some b.ep, ptype := none, arrivalTime := none, requiredTime := none, slackTime := none, points := [mkPointDict b.firstPt st.tIncr (st.unitPrecision.getD 3)] }, token := true, tIncr := 0 }).path with points := (({ st with path := { id := some b.pid, startpoint := some b.sp, endpoint := some b.ep, ptype := none, arrivalTime := none, requiredTime := none, slackTime := none, points := [mkPointDict b.firstPt st.tIncr (st.unitPrecision.getD 3)] }, token := true, tIncr := 0 }).path.points ++ extra) ++ [mkPointDict b.lastPt tI (st.unitPrecision.getD 3)] }, tIncr := 0, token := false }, false) := by
    unfold step
    dsimp only [applyFileInfo, applyPathDesc, matchesStartToken,
      matchesEndToken, Option.getD]
    rw [if_neg (by simp)]
    have hd5 : decide (b.lastPt.point = b.ep ∧ b.lastPt.edgeClock = none)
        = true :=
      decide_eq_true ⟨hlep, hlec⟩
    simp only [hd5, eq_self_iff_true, not_true, and_false, false_and, if_false,
      true_and, and_true, and_self, if_true]
  have h6 : step none ({ ({ st with path := { id := some b.pid, startpoint := some b.sp, endpoint := some b.ep, ptype := none, arrivalTime := none, requiredTime := none, slackTime := none, points := [mkPointDict b.firstPt st.tIncr (st.unitPrecision.getD 3)] }, token := true, tIncr := 0 }) with path := { ({ st with path := { id := some b.pid, startpoint := some b.sp, endpoint := some b.ep, ptype := none, arrivalTime := none, requiredTime := none, slackTime := none, points := [mkPointDict b.firstPt st.tIncr (st.unitPrecision.getD 3)] }, token := true, tIncr := 0 }).path with points := (({ st with path := { id := some b.pid, startpoint := some b.sp, endpoint := some b.ep, ptype := none, arrivalTime := none, requiredTime := none, slackTime := none, points := [mkPointDict b.firstPt st.tIncr (st.unitPrecision.getD 3)] }, token := true, tIncr := 0 }).path.points ++ extra) ++ [mkPointDict b.lastPt tI (st.unitPrecision.getD 3)] }, tIncr := 0, token := false }) (.slack "setup" b.slackVal) =
      .ok ({ st with path := freshPath, token := false, tIncr := 0, paths := st.paths ++ [{ id := some b.pid, startpoint := some b.sp, endpoint := some b.ep, ptype := none, arrivalTime := none, requiredTime := none, slackTime := some b.slackVal, points := ([mkPointDict b.firstPt st.tIncr (st.unitPrecision.getD 3)] ++ extra) ++ [mkPointDict b.lastPt tI (st.unitPrecision.getD 3)] }] }, false) := by
    unfold step
    rfl
  have hok : pathAmendedOkB ({ id := some b.pid, startpoint := some b.sp, endpoint := some b.ep, ptype := none, arrivalTime := none, requiredTime := none, slackTime := some b.slackVal, points := ([mkPointDict b.firstPt st.tIncr (st.unitPrecision.getD 3)] ++ extra) ++ [mkPointDict b.lastPt tI (st.unitPrecision.getD 3)] }) = true := by
    have hgl : ((([mkPointDict b.firstPt st.tIncr (st.unitPrecision.getD 3)] ++ extra) ++ [mkPointDict b.lastPt tI (st.unitPrecision.getD 3)]) : List Dict).getLast?
        = some (mkPointDict b.lastPt tI (st.unitPrecision.getD 3)) := List.getLast?_concat _
    have hhd : ((([mkPointDict b.firstPt st.tIncr (st.unitPrecision.getD 3)] ++ extra) ++ [mkPointDict b.lastPt tI (st.unitPrecision.getD 3)]) : List Dict).head?
        = some (mkPointDict b.firstPt st.tIncr (st.unitPrecision.getD 3)) := by simp
    have hlen : 2 ≤ (([mkPointDict b.firstPt st.tIncr (st.unitPrecision.getD 3)] ++ extra) ++ [mkPointDict b.lastPt tI (st.unitPrecision.getD 3)]).length := by
      simp only [List.length_append, List.length_cons, List.length_nil]
      omega
    unfold pathAmendedOkB
    dsimp only
    rw [hhd, hgl]
    dsimp only
    simp only [Bool.and_eq_true, decide_eq_true_eq]
    refine ⟨⟨hlen, ?_⟩, ?_⟩
    · rw [dget_mkPointDict_point, hfst]
    · rw [dget_mkPointDict_point, hlep]
  refine ⟨{ st with path := freshPath, token := false, tIncr := 0, paths := st.paths ++ [{ id := some b.pid, startpoint := some b.sp, endpoint := some b.ep, ptype := none, arrivalTime := none, requiredTime := none, slackTime := some b.slackVal, points := ([mkPointDict b.firstPt st.tIncr (st.unitPrecision.getD 3)] ++ extra) ++ [mkPointDict b.lastPt tI (st.unitPrecision.getD 3)] }] }, { id := some b.pid, startpoint := some b.sp, endpoint := some b.ep, ptype := none, arrivalTime := none, requiredTime := none, slackTime := some b.slackVal, points := ([mkPointDict b.firstPt st.tIncr (st.unitPrecision.getD 3)] ++ extra) ++ [mkPointDict b.lastPt tI (st.unitPrecision.getD 3)] }, ?_, rfl, rfl, rfl, hok⟩
  have e1 : runLines none st ([.pathId b.pid, .startpoint b.sp, .endpoint b.ep, .point b.firstPt] ++ (b.mids ++ [.point b.lastPt, .slack "setup" b.slackVal])) =
      runLines none ({ st with path := { id := some b.pid, startpoint := some b.sp, endpoint := some b.ep, ptype := none, arrivalTime := none, requiredTime := none, slackTime := none, points := [mkPointDict b.firstPt st.tIncr (st.unitPrecision.getD 3)] }, token := true, tIncr := 0 }) (b.mids ++ [.point b.lastPt, .slack "setup" b.slackVal]) :=
    runLines_append none _ st _ hhead _
  have e2 : runLines none ({ st with path := { id := some b.pid, startpoint := some b.sp, endpoint := some b.ep, ptype := none, arrivalTime := none, requiredTime := none, slackTime := none, points := [mkPointDict b.firstPt st.tIncr (st.unitPrecision.getD 3)] }, token := true, tIncr := 0 }) (b.mids ++ [.point b.lastPt, .slack "setup" b.slackVal]) =
      runLines none ({ ({ st with path := { id := some b.pid, startpoint := some b.sp, endpoint := some b.ep, ptype := none, arrivalTime := none, requiredTime := none, slackTime := none, points := [mkPointDict b.firstPt st.tIncr (st.unitPrecision.getD 3)] }, token := true, tIncr := 0 }) with path := { ({ st with path := { id := some b.pid, startpoint := some b.sp, endpoint := some b.ep, ptype := none, arrivalTime := none, requiredTime := none, slackTime := none, points := [mkPointDict b.firstPt st.tIncr (st.unitPrecision.getD 3)] }, token := true, tIncr := 0 }).path with points := ({ st with path := { id := some b.pid, startpoint := some b.sp, endpoint := some b.ep, ptype := none, arrivalTime := none, requiredTime := none, slackTime := none, points := [mkPointDict b.firstPt st.tIncr (st.unitPrecision.getD 3)] }, token := true, tIncr := 0 }).path.points ++ extra }, tIncr := tI }) [.point b.lastPt, .slack "setup" b.slackVal] :=
    runLines_append none b.mids _ _ heq _
  have e3 : runLines none ({ ({ st with path := { id := some b.pid, startpoint := some b.sp, endpoint := some b.ep, ptype := none, arrivalTime := none, requiredTime := none, slackTime := none, points := [mkPointDict b.firstPt st.tIncr (st.unitPrecision.getD 3)] }, token := true, tIncr := 0 }) with path := { ({ st with path := { id := some b.pid, startpoint := some b.sp, endpoint := some b.ep, ptype := none, arrivalTime := none, requiredTime := none, slackTime := none, points := [mkPointDict b.firstPt st.tIncr (st.unitPrecision.getD 3)] }, token := true, tIncr := 0 }).path with points := ({ st with path := { id := some b.pid, startpoint := some b.sp, endpoint := some b.ep, ptype := none, arrivalTime := none, requiredTime := none, slackTime := none, points := [mkPointDict b.firstPt st.tIncr (st.unitPrecision.getD 3)] }, token := true, tIncr := 0 }).path.points ++ extra }, tIncr := tI }) [.point b.lastPt, .slack "setup" b.slackVal] =
      runLines none ({ ({ st with path := { id := some b.pid, startpoint := some b.sp, endpoint := some b.ep, ptype := none, arrivalTime := none, requiredTime := none, slackTime := none, points := [mkPointDict b.firstPt st.tIncr (st.unitPrecision.getD 3)] }, token := true, tIncr := 0 }) with path := { ({ st with path := { id := some b.pid, startpoint := some b.sp, endpoint := some b.ep, ptype := none, arrivalTime := none, requiredTime := none, slackTime := none, points := [mkPointDict b.firstPt st.tIncr (st.unitPrecision.getD 3)] }, token := true, tIncr := 0 }).path with points := (({ st with path := { id := some b.pid, startpoint := some b.sp, endpoint := some b.ep, ptype := none, arrivalTime := none, requiredTime := none, slackTime := none, points := [mkPointDict b.firstPt st.tIncr (st.unitPrecision.getD 3)] }, token := true, tIncr := 0 }).path.points ++ extra) ++ [mkPointDict b.lastPt tI (st.unitPrecision.getD 3)] }, tIncr := 0, token := false }) [.slack "setup" b.slackVal] :=
    runLines_cons_ok none _ _ _ _ h5
  have e4 : runLines none ({ ({ st with path := { id := some b.pid, startpoint := some b.sp, endpoint := some b.ep, ptype := none, arrivalTime := none, requiredTime := none, slackTime := none, points := [mkPointDict b.firstPt st.tIncr (st.unitPrecision.getD 3)] }, token := true, tIncr := 0 }) with path := { ({ st with path := { id := some b.pid, startpoint := some b.sp, endpoint := some b.ep, ptype := none, arrivalTime := none, requiredTime := none, slackTime := none, points := [mkPointDict b.firstPt st.tIncr (st.unitPrecision.getD 3)] }, token := true, tIncr := 0 }).path with points := (({ st with path := { id := some b.pid, startpoint := some b.sp, endpoint := some b.ep, ptype := none, arrivalTime := none, requiredTime := none, slackTime := none, points := [mkPointDict b.firstPt st.tIncr (st.unitPrecision.getD 3)] }, token := true, tIncr := 0 }).path.points ++ extra) ++ [mkPointDict b.lastPt tI (st.unitPrecision.getD 3)] }, tIncr := 0, token := false }) [.slack "setup" b.slackVal] =
      runLines none ({ st with path := freshPath, token := false, tIncr := 0, paths := st.paths ++ [{ id := some b.pid, startpoint := some b.sp, endpoint := some b.ep, ptype := none, arrivalTime := none, requiredTime := none, slackTime := some b.slackVal, points := ([mkPointDict b.firstPt st.tIncr (st.unitPrecision.getD 3)] ++ extra) ++ [mkPointDict b.lastPt tI (st.unitPrecision.getD 3)] }] }) [] :=
    runLines_cons_ok none _ _ _ _ h6
  unfold blockLines
  rw [List.append_assoc]
  exact e1.trans (e2.trans (e3.trans e4))

/-- Running a list of well-formed blocks from a clean state appends one
structurally sound path per block. -/
theorem runBlocks (bs : List WFBlock) (hbs : bs.all WFBlockOk = true)
    (st : TState) (hpath : st.path = freshPath) (htk : st.token = false) :
    ∃ st' newPaths,
      runLines none st (blocksLines bs) = .ok (st', false) ∧
      st'.paths = st.paths ++ newPaths ∧
      newPaths.all pathAmendedOkB = true := by
  induction bs generalizing st with
  | nil =>
      refine ⟨st, [], rfl, (List.append_nil _).symm, rfl⟩
  | cons b rest ih =>
      simp only [List.all_cons, Bool.and_eq_true] at hbs
      obtain ⟨hb, hrest⟩ := hbs
      obtain ⟨st1, newPath, hrun, hp1, ht1, hps1, hok⟩ := runBlock b hb st hpath htk
      obtain ⟨st2, nps, hrun2, hps2, hall⟩ := ih hrest st1 hp1 ht1
      refine ⟨st2, newPath :: nps, ?_, ?_, ?_⟩
      · show runLines none st (blockLines b ++ blocksLines rest) = _
        rw [runLines_append none _ st _ hrun _]
        exact hrun2
      · rw [hps2, hps1, List.append_assoc]
        rfl
      · simp [hok, hall]

/-- Claim C1 (amended): on a well-formed report — header lines followed
by path blocks whose first point line names the declared startpoint,
whose last point line names the declared endpoint with no clock-edge
tag, and whose middle lines do not match the end token — `parse`
succeeds and every produced path has at least two points, with its first
point naming the startpoint and its last the endpoint.  The cumulative
`t_sum` column, however, is stored verbatim: the defensive clamp of
`parse` rewrites only `t_incr`, so nothing establishes monotonicity of
`t_sum` (the counterexample shows it can decrease on a parsed path). -/
theorem C1_amended (pre : List RptLine) (bs : List WFBlock)
    (hpre : pre.all preludeOk = true) (hbs : bs.all WFBlockOk = true) :
    (∃ rpt, parseTiming none (pre ++ blocksLines bs) = .ok rpt ∧
        rpt.paths.all pathAmendedOkB = true) ∧
    (∀ pl carry prec, dget (mkPointDict pl carry prec) "t_sum" =
        some (.rat pl.tSum)) := by
  constructor
  · obtain ⟨us, up, hpr⟩ := runPrelude pre hpre initTState rfl
    obtain ⟨st2, nps, hrun2, hps2, hall⟩ := runBlocks bs hbs
      { initTState with unitScale := us, unitPrecision := up } rfl rfl
    refine ⟨{ nbPaths := some (st2.paths.length : ℤ), unitScale := st2.unitScale
              unitPrecision := st2.unitPrecision, paths := st2.paths }, ?_, ?_⟩
    · unfold parseTiming
      rw [runLines_append none pre initTState _ hpr (blocksLines bs)]
      rw [hrun2]
      rfl
    · dsimp only
      rw [hps2]
      simpa [initTState] using hall
  · intro pl carry prec
    unfold mkPointDict
    cases hc : pl.atCoords with
    | none =>
        cases he : pl.edgeClock with
        | none => rfl
        | some ec => rfl
    | some xy =>
        obtain ⟨x, y⟩ := xy
        cases he : pl.edgeClock with
        | none => rfl
        | some ec => rfl

/-- A concrete well-formed block for the C1 witness. -/
def wfb1 : WFBlock :=
  { pid := 1, sp := "a", ep := "y",
    firstPt := ⟨"a", ".ff", none, some "rise", 1, 1⟩,
    mids := [.net "n1" 1 2, .point ⟨"m.in[0]", ".names", none, none, 1, 2⟩,
             .other],
    lastPt := ⟨"y", ".ff", none, none, 1, 3⟩,
    slackVal := 5 }

/-- Witness for C1 (amended) at a concrete well-formed report of one
block behind a scale/precision header. -/
theorem C1_amended_witness :
    (∃ rpt, parseTiming none
        ([.scale 1, .precision 3, .other] ++ blocksLines [wfb1]) = .ok rpt ∧
        rpt.paths.all pathAmendedOkB = true) ∧
    (∀ pl carry prec, dget (mkPointDict pl carry prec) "t_sum" =
        some (.rat pl.tSum)) :=
  C1_amended [.scale 1, .precision 3, .other] [wfb1]
    (by with_unfolding_all rfl) (by with_unfolding_all rfl)

end OFS
